import Mathlib

set_option maxRecDepth 16384

/-!
Shallow embedding of the graph-construction and genre-inference pipeline of
the youtube-music-mapper repository (backend/server.py,
backend/spotify_client.py, backend/assign_genres.py,
backend/rebuild_graph.py), together with theorems settling the
specification claims about it.

Conventions used throughout:
- Python dicts are modelled as association lists in insertion order; a dict
  literal with a duplicate key keeps the first position and the last value.
- A Python `d[k]` access that can raise KeyError is modelled in the
  `Except String` monad; `d.get(k, default)` is modelled with
  `Option`/explicit defaults.
- Python floats are modelled as exact rationals; the divisions involved in
  the claims stay inside the range where the two agree.
- Python `str.lower` is modelled for the character set occurring in this
  repository (ASCII plus the Latin-1 uppercase block).
-/

namespace YMM

/-- Python `str.lower` for one character, covering ASCII `A`-`Z` and the
Latin-1 uppercase block (U+00C0 to U+00DE except the multiplication sign),
which covers every character in the repository's tables. -/
def pyLowerChar (c : Char) : Char :=
  if 'A' ≤ c ∧ c ≤ 'Z' then Char.ofNat (c.toNat + 32)
  else if 0xC0 ≤ c.toNat ∧ c.toNat ≤ 0xDE ∧ c.toNat ≠ 0xD7 then Char.ofNat (c.toNat + 32)
  else c

/-- Python `s.lower()`. -/
def pyLower (s : String) : String := String.mk (s.data.map pyLowerChar)

/-- Boolean test that the first character list is a prefix of the second
(Python `s.startswith`). -/
def strStarts : List Char → List Char → Bool
  | [], _ => true
  | _ :: _, [] => false
  | a :: as, b :: bs => a == b && strStarts as bs

/-- Python substring containment `needle in hay` on character lists. -/
def strHas (needle : List Char) : List Char → Bool
  | [] => needle.isEmpty
  | c :: rest => strStarts needle (c :: rest) || strHas needle rest

/-- Python whitespace as stripped by `str.strip()`. -/
def pyWhitespace (c : Char) : Bool :=
  c == ' ' || c == '\t' || c == '\n' || c == '\x0d' || c == '\x0b' || c == '\x0c'

/-- Python `s.strip()`. -/
def pyStrip (s : String) : String :=
  String.mk (((s.data.dropWhile pyWhitespace).reverse.dropWhile pyWhitespace).reverse)

/-- Python string comparison (lexicographic by code point) on character
lists. -/
def listLtChars : List Char → List Char → Bool
  | [], [] => false
  | [], _ :: _ => true
  | _ :: _, [] => false
  | a :: as, b :: bs => if a < b then true else if b < a then false else listLtChars as bs

/-- Python `a < b` on strings. -/
def pyStrLt (a b : String) : Bool := listLtChars a.data b.data

/-- Python `tuple(sorted([a, b]))` on two strings (`sorted` is stable, so
the pair is swapped exactly when the second component is strictly
smaller). -/
def sortPair (a b : String) : String × String := if pyStrLt b a then (b, a) else (a, b)

/-- Increment an entry of a counting dict, keeping insertion order and
appending new keys at the end (mirrors `d[k] = d.get(k, 0) + 1`). -/
def bumpCount {α : Type} [DecidableEq α] : List (α × Nat) → α → List (α × Nat)
  | [], k => [(k, 1)]
  | (a, n) :: rest, k => if a = k then (a, n + 1) :: rest else (a, n) :: bumpCount rest k

/-- Append a value to the list stored under a key of a dict of lists,
creating the key at the end when absent. -/
def appendAt {α : Type} : List (String × List α) → String → α → List (String × List α)
  | [], k, v => [(k, [v])]
  | (a, l) :: rest, k, v => if a = k then (a, l ++ [v]) :: rest else (a, l) :: appendAt rest k v

/-- Dict lookup on an association list (first matching key). -/
def dictFind {β : Type} (m : List (String × β)) (k : String) : Option β :=
  (m.find? (fun p => p.1 == k)).map (·.2)

/-- Model of a Python `d['key']` access on an optional field: KeyError when
the key is absent. -/
def require {α : Type} (o : Option α) (key : String) : Except String α :=
  match o with
  | some a => .ok a
  | none => .error ("KeyError: " ++ key)

/-- Effectful map over a list in the `Except` monad, evaluating left to
right and stopping at the first error (the order Python evaluates the
corresponding loops in). -/
def listMapM {α β : Type} (f : α → Except String β) : List α → Except String (List β)
  | [] => .ok []
  | x :: xs => do
    let y ← f x
    let ys ← listMapM f xs
    pure (y :: ys)

/-- Python truthiness of `x or default` for an optional string (both `None`
and the empty string fall through to the default). -/
def pyOr (o : Option String) (d : String) : String :=
  match o with
  | some s => if s = "" then d else s
  | none => d

/-- One raw song observation as handed to `build_graph_from_songs`
(server.py). `title` and `artist` are `Option` so that a malformed
observation with the key missing is representable; `all_artists` defaults
to `[]` exactly as `song.get('all_artists', [])` does. -/
structure Song where
  title : Option String
  artist : Option String
  all_artists : List String := []
  album : Option String := none
deriving DecidableEq, Repr

/-- Transport form of one song inside a node (server.py line 933). -/
structure SongRef where
  title : String
deriving DecidableEq, Repr

/-- Artist node of the graph emitted by `build_graph_from_songs`
(server.py lines 926-934). -/
structure Node where
  id : String
  name : String
  song_count : Nat
  importance : ℚ
  in_library : Bool
  genre : String
  songs : List SongRef
deriving DecidableEq, Repr

/-- Collaboration link (server.py lines 974-979). -/
structure Link where
  source : String
  target : String
  weight : Nat
  type : String
deriving DecidableEq, Repr

/-- Stats block of the emitted graph (server.py lines 984-989). -/
structure Stats where
  total_artists : Nat
  total_connections : Nat
  library_artists : Nat
  related_artists : Nat
deriving DecidableEq, Repr

/-- Graph snapshot emitted by `build_graph_from_songs`. -/
structure Graph where
  nodes : List Node
  links : List Link
  stats : Stats
deriving DecidableEq, Repr

deriving instance DecidableEq for Except

/-- A node with its rational-valued `importance` field dropped, so that
concrete graphs can be evaluated by `decide`; the rational arithmetic
itself is covered by the importance theorems. -/
structure NodeShape where
  id : String
  name : String
  song_count : Nat
  in_library : Bool
  genre : String
  songs : List SongRef
deriving DecidableEq, Repr

/-- A graph with the `importance` fields of its nodes dropped. -/
structure GraphShape where
  nodes : List NodeShape
  links : List Link
  stats : Stats
deriving DecidableEq, Repr

/-- Forget a node's importance. -/
def nodeShape (n : Node) : NodeShape :=
  { id := n.id, name := n.name, song_count := n.song_count,
    in_library := n.in_library, genre := n.genre, songs := n.songs }

/-- Forget the importances of a whole graph. -/
def graphShape (g : Graph) : GraphShape :=
  { nodes := g.nodes.map nodeShape, links := g.links, stats := g.stats }

/-- Embedding of `get_artist_genre` (server.py 824-843): direct dict hit,
then a case-insensitive scan, then a retry without a leading "the ". The
genre map (loaded from `genre_map.json` at runtime) is a parameter. -/
def get_artist_genre (artist_name : String) (genre_map : List (String × String)) :
    Option String :=
  match dictFind genre_map artist_name with
  | some g => some g
  | none =>
    let lower_name := pyLower artist_name
    match genre_map.find? (fun p => pyLower p.1 == lower_name) with
    | some p => some p.2
    | none =>
      if strStarts "the ".data lower_name.data then
        let check_name := String.mk (artist_name.data.drop 4)
        match genre_map.find? (fun p => pyLower p.1 == pyLower check_name) with
        | some p => some p.2
        | none => none
      else none

/-- Step 1 of `build_graph_from_songs` (server.py 907-912): group the songs
by primary artist in first-seen order, raising KeyError when
`song['artist']` is missing. -/
def groupSongs (songs : List Song) : Except String (List (String × List Song)) :=
  songs.foldlM (fun gs s => do
    let a ← require s.artist "artist"
    pure (appendAt gs a s)) []

/-- Group-wide maximum song count of server.py line 916:
`max(len(s) for s in artist_songs.values()) if artist_songs else 1`. -/
def maxSongs (gs : List (String × List Song)) : Nat :=
  if gs.isEmpty then 1 else (gs.map (fun g => g.2.length)).foldl Nat.max 0

/-- Node creation for one artist group (server.py 918-934); the
materialized `songs` list is capped at 20 entries and `song['title']`
raises KeyError when absent. The Last.fm fallback is the `lastfm`
parameter (the real client returns `None` when unconfigured). -/
def mkNode (genre_map : List (String × String)) (lastfm : String → Option String)
    (max_songs : Nat) (g : String × List Song) : Except String Node := do
  let importance : ℚ := (g.2.length : ℚ) / (max_songs : ℚ)
  let genre :=
    match get_artist_genre g.1 genre_map with
    | some s => if s = "" then pyOr (lastfm g.1) "Other" else s
    | none => pyOr (lastfm g.1) "Other"
  let titles ← listMapM (fun s => require s.title "title") (g.2.take 20)
  pure { id := g.1, name := g.1, song_count := g.2.length, importance := importance,
         in_library := true, genre := genre,
         songs := titles.map (fun t => { title := t }) }

/-- First linking pass (server.py 941-949): for each stored song with more
than one credited artist, pair the group's artist with every entry of
`all_artists[1:]` that owns a node of its own. -/
def collabPass1 (gs : List (String × List Song)) : List ((String × String) × Nat) :=
  gs.foldl (fun cc g =>
    g.2.foldl (fun cc s =>
      if s.all_artists.length > 1 then
        (s.all_artists.drop 1).foldl (fun cc other =>
          if (dictFind gs other).isSome then bumpCount cc (sortPair g.1 other) else cc) cc
      else cc) cc) []

/-- All index-ordered pairs of a list, in the order the double loop
`for i, a1 in enumerate(l): for j, a2 in enumerate(l): if i >= j: continue`
visits them. -/
def orderedPairs {α : Type} : List α → List (α × α)
  | [] => []
  | x :: xs => xs.map (fun y => (x, y)) ++ orderedPairs xs

/-- Second linking pass (server.py 951-969): for every ordered pair of
distinct artists, bump the pair once per song whose lowercased title
contains the other artist's lowercased name. -/
def collabPass2 (gs : List (String × List Song))
    (cc : List ((String × String) × Nat)) : Except String (List ((String × String) × Nat)) :=
  (orderedPairs gs).foldlM (fun cc p => do
    let cc ← p.1.2.foldlM (fun cc s => do
      let t ← require s.title "title"
      pure (if strHas (pyLower p.2.1).data (pyLower t).data then
        bumpCount cc (sortPair p.1.1 p.2.1) else cc)) cc
    p.2.2.foldlM (fun cc s => do
      let t ← require s.title "title"
      pure (if strHas (pyLower p.1.1).data (pyLower t).data then
        bumpCount cc (sortPair p.1.1 p.2.1) else cc)) cc) cc

/-- Link materialization (server.py 971-979): entries with positive weight
become `collaboration` links. -/
def mkLinks (cc : List ((String × String) × Nat)) : List Link :=
  cc.filterMap (fun e =>
    if e.2 > 0 then
      some { source := e.1.1, target := e.1.2, weight := e.2, type := "collaboration" }
    else none)

/-- Embedding of `build_graph_from_songs` (server.py 901-990), staged in
the order the Python function runs: group, build nodes (against the
group-wide maximum), run both linking passes, materialize links and
stats. -/
def build_graph_from_songs (genre_map : List (String × String))
    (lastfm : String → Option String) (songs : List Song) : Except String Graph := do
  let artist_songs ← groupSongs songs
  let nodes ← listMapM (mkNode genre_map lastfm (maxSongs artist_songs)) artist_songs
  let cc ← collabPass2 artist_songs (collabPass1 artist_songs)
  pure { nodes := nodes, links := mkLinks cc,
         stats := { total_artists := nodes.length, total_connections := (mkLinks cc).length,
                    library_artists := nodes.length, related_artists := 0 } }

/-- Update the value stored under a key of an association-list dict,
leaving the dict unchanged when the key is absent. -/
def updateAt {β : Type} : List (String × β) → String → (β → β) → List (String × β)
  | [], _, _ => []
  | (a, b) :: rest, k, f => if a = k then (a, f b) :: rest else (a, b) :: updateAt rest k f

/-- Insert a key with a default value at the end of a dict when absent. -/
def ensureAt {β : Type} (m : List (String × β)) (k : String) (d : β) : List (String × β) :=
  if (dictFind m k).isSome then m else m ++ [(k, d)]

/-- One Spotify API track object, reduced to the fields
`parse_spotify_tracks` reads (spotify_client.py 160-182); each `.get`
default is applied at parse time. -/
structure STrack where
  name : Option String := none
  artists : List String := []
  album : Option String := none
  duration_ms : Option Nat := none
  popularity : Option Nat := none
  id : Option String := none
  preview_url : Option String := none
deriving DecidableEq, Repr

/-- One item of the Spotify saved-tracks response; `track` is `none` when
the payload's `track` entry is missing or empty (both are falsy). -/
structure SItem where
  track : Option STrack
  added_at : Option String := none
deriving DecidableEq, Repr

/-- One song in the repository's own format as produced by
`parse_spotify_tracks` (spotify_client.py 172-182). -/
structure SSong where
  title : String
  artist : String
  all_artists : List String
  album : String
  duration_ms : Nat
  popularity : Nat
  spotify_id : String
  preview_url : String
  added_at : String
deriving DecidableEq, Repr

/-- Embedding of `parse_spotify_tracks` (spotify_client.py 156-186). -/
def parse_spotify_tracks (tracks : List SItem) : List SSong :=
  tracks.foldl (fun songs item =>
    match item.track with
    | none => songs
    | some track =>
      songs ++ [{ title := track.name.getD "Unknown",
                  artist := track.artists.headD "Unknown Artist",
                  all_artists := track.artists,
                  album := track.album.getD "",
                  duration_ms := track.duration_ms.getD 0,
                  popularity := track.popularity.getD 0,
                  spotify_id := track.id.getD "",
                  preview_url := track.preview_url.getD "",
                  added_at := item.added_at.getD "" }]) []

/-- Per-artist accumulator of `build_graph_from_spotify`
(spotify_client.py 194-208). Python stores `collaborators` in a `set`; it
is modelled as an insertion-ordered duplicate-free list (all facts proved
below are independent of the set's iteration order). -/
structure SArtistData where
  songs : List SSong
  collaborators : List String
deriving DecidableEq, Repr

/-- Grouping pass of `build_graph_from_spotify` (spotify_client.py
196-208): group songs by primary artist and record the co-credited
artists of `all_artists[1:]`. -/
def sGroup (songs : List SSong) : List (String × SArtistData) :=
  songs.foldl (fun ad s =>
    let ad := ensureAt ad s.artist { songs := [], collaborators := [] }
    let ad := updateAt ad s.artist (fun d => { d with songs := d.songs ++ [s] })
    (s.all_artists.drop 1).foldl (fun ad c =>
      updateAt ad s.artist (fun d =>
        { d with collaborators :=
            if d.collaborators.contains c then d.collaborators else d.collaborators ++ [c] })) ad) []

/-- One song reference inside a Spotify graph node
(spotify_client.py line 228). -/
structure SSongRef where
  title : String
  album : String
deriving DecidableEq, Repr

/-- Artist node of the graph emitted by `build_graph_from_spotify`
(spotify_client.py 221-229); note that it carries no genre field. -/
structure SNode where
  id : String
  name : String
  song_count : Nat
  importance : ℚ
  in_library : Bool
  popularity : ℚ
  songs : List SSongRef
deriving DecidableEq, Repr

/-- Stats block of the Spotify graph (spotify_client.py 258-264). -/
structure SStats where
  total_artists : Nat
  total_connections : Nat
  library_artists : Nat
  related_artists : Nat
  total_songs : Nat
deriving DecidableEq, Repr

/-- Graph emitted by `build_graph_from_spotify`. -/
structure SGraph where
  nodes : List SNode
  links : List Link
  stats : SStats
deriving DecidableEq, Repr

/-- Link-building fold of `build_graph_from_spotify` (spotify_client.py
231-253), threading the `seen_pairs` set as a list. -/
def sLinks (artist_data : List (String × SArtistData)) : List Link × List (String × String) :=
  artist_data.foldl (fun st g =>
    g.2.collaborators.foldl (fun (st : List Link × List (String × String)) collab =>
      if (dictFind artist_data collab).isSome then
        let pair := sortPair g.1 collab
        if st.2.contains pair then st
        else
          let collab_count := (g.2.songs.filter (fun s => s.all_artists.contains collab)).length
          (st.1 ++ [{ source := g.1, target := collab, weight := collab_count,
                      type := "collaboration" }],
           st.2 ++ [pair])
      else st) st) ([], [])

/-- Group-wide maximum song count of spotify_client.py line 212:
`max(len(d['songs']) for d in artist_data.values()) if artist_data else 1`. -/
def sMaxSongs (ad : List (String × SArtistData)) : Nat :=
  if ad.isEmpty then 1 else (ad.map (fun g => g.2.songs.length)).foldl Nat.max 0

/-- Node creation for one spotify artist entry (spotify_client.py
214-229): importance against the group-wide maximum, average popularity
(0 for an empty group), songs capped at 20. -/
def sNodeOf (max_songs : Nat) (g : String × SArtistData) : SNode :=
  { id := g.1, name := g.1, song_count := g.2.songs.length,
    importance := (g.2.songs.length : ℚ) / (max_songs : ℚ),
    in_library := true,
    popularity :=
      if g.2.songs.length > 0 then
        (((g.2.songs.map (·.popularity)).sum : ℚ)) / ((g.2.songs.length : ℚ))
      else 0,
    songs := (g.2.songs.take 20).map (fun s => { title := s.title, album := s.album }) }

/-- Embedding of `build_graph_from_spotify` (spotify_client.py 189-265). -/
def build_graph_from_spotify (tracks : List SItem) : SGraph :=
  let songs := parse_spotify_tracks tracks
  let artist_data := sGroup songs
  let nodes := artist_data.map (sNodeOf (sMaxSongs artist_data))
  let links := (sLinks artist_data).1
  { nodes := nodes, links := links,
    stats := { total_artists := nodes.length, total_connections := links.length,
               library_artists := nodes.length, related_artists := 0,
               total_songs := songs.length } }

/-- One decoded CSV row as produced by `csv.DictReader`: header-to-cell
dict (the byte decoding itself is out of scope). -/
abbrev Row := List (String × String)

/-- Python `row.get(k, d)` on a decoded CSV row. -/
def rowGet (r : Row) (k d : String) : String := (dictFind r k).getD d

/-- Title extraction of one CSV row (server.py line 727). -/
def csvTitle (row : Row) : String :=
  rowGet row "Song Title" (rowGet row "Title" (rowGet row "title" (rowGet row "Song" "")))

/-- Primary-artist extraction of one CSV row (server.py line 730). -/
def csvArtist (row : Row) : String :=
  rowGet row "Artist Name 1" (rowGet row "Artist" (rowGet row "artist" (rowGet row "Artists" "")))

/-- Co-credit list of one CSV row (server.py 733-737): the primary artist
when truthy, then the stripped nonempty columns `Artist Name 2` to
`Artist Name 5` (the loop `for i in range(2, 6)`). -/
def csvAllArtists (row : Row) : List String :=
  ([2, 3, 4, 5] : List Nat).foldl (fun aa i =>
    let extra := rowGet row ("Artist Name " ++ toString i) ""
    if extra ≠ "" ∧ pyStrip extra ≠ "" then aa ++ [pyStrip extra] else aa)
    (if csvArtist row ≠ "" then [csvArtist row] else [])

/-- Embedding of `parse_csv_file` (server.py 713-747) from decoded rows:
rows whose extracted title or artist is empty (falsy) are skipped. -/
def parse_csv_file (rows : List Row) : List Song :=
  rows.foldl (fun songs row =>
    if csvTitle row ≠ "" ∧ csvArtist row ≠ "" then
      songs ++ [{ title := some (csvTitle row), artist := some (csvArtist row),
                  all_artists := csvAllArtists row,
                  album := some (rowGet row "Album Title" (rowGet row "Album" "")) }]
    else songs) []

/-- One stored song record of `rebuild_graph` (rebuild_graph.py 23-27). -/
structure RSong where
  title : String
  album : String
  duration : String
deriving DecidableEq, Repr

/-- One step of the title dedup of `rebuild_graph` (rebuild_graph.py
38-41), threading the `seen_titles` set as a list. -/
def dedupStep (st : List String × List RSong) (s : RSong) : List String × List RSong :=
  if st.1.contains s.title then st else (st.1 ++ [s.title], st.2 ++ [s])

/-- Title dedup of `rebuild_graph` (rebuild_graph.py lines 36-41): the
first occurrence of each title wins. -/
def dedupSongsByTitle (songs : List RSong) : List RSong :=
  (songs.foldl dedupStep ([], [])).2

/-- The `ARTIST_GENRES` dict of assign_genres.py (lines 10-547), after
Python dict-literal evaluation: a duplicate key keeps its first position
and its last value (this affects only `Blanke`, whose final value is
"Midtempo Bass"; the other repeated keys repeat the same value).
Apostrophes are written with the escape `\x27`. -/
def ARTIST_GENRES : List (String × String) := [
  ("Seven Lions", "Melodic Bass"),
  ("Illenium", "Melodic Bass"),
  ("Said The Sky", "Melodic Bass"),
  ("Dabin", "Melodic Bass"),
  ("SLANDER", "Melodic Bass"),
  ("Jason Ross", "Melodic Bass"),
  ("Crystal Skies", "Melodic Bass"),
  ("Trivecta", "Melodic Bass"),
  ("Last Heroes", "Melodic Bass"),
  ("MitiS", "Melodic Bass"),
  ("William Black", "Melodic Bass"),
  ("Nurko", "Melodic Bass"),
  ("Blanke", "Midtempo Bass"),
  ("ARMNHMR", "Melodic Bass"),
  ("Xavi", "Melodic Bass"),
  ("Fairlane", "Melodic Bass"),
  ("Ophelia Records", "Melodic Bass"),
  ("Mitis", "Melodic Bass"),
  ("Adventure Club", "Melodic Bass"),
  ("HALIENE", "Melodic Bass"),
  ("RUNN", "Melodic Bass"),
  ("Au5", "Melodic Bass"),
  ("Grabbitz", "Melodic Bass"),
  ("Nevve", "Melodic Bass"),
  ("Excision", "Dubstep/Bass"),
  ("Subtronics", "Dubstep/Bass"),
  ("Sullivan King", "Dubstep/Bass"),
  ("SVDDEN DEATH", "Dubstep/Bass"),
  ("Kompany", "Dubstep/Bass"),
  ("Wooli", "Dubstep/Bass"),
  ("Marauda", "Dubstep/Bass"),
  ("MUST DIE!", "Dubstep/Bass"),
  ("Zomboy", "Dubstep/Bass"),
  ("Virtual Riot", "Dubstep/Bass"),
  ("Skrillex", "Dubstep/Bass"),
  ("Knife Party", "Dubstep/Bass"),
  ("Midnight Tyrannosaurus", "Dubstep/Bass"),
  ("Datsik", "Dubstep/Bass"),
  ("Doctor P", "Dubstep/Bass"),
  ("Flux Pavilion", "Dubstep/Bass"),
  ("Pegboard Nerds", "Dubstep/Bass"),
  ("Eptic", "Dubstep/Bass"),
  ("NGHTMRE", "Dubstep/Bass"),
  ("Dion Timmer", "Dubstep/Bass"),
  ("Ray Volpe", "Dubstep/Bass"),
  ("Riot Ten", "Dubstep/Bass"),
  ("JSTJR", "Dubstep/Bass"),
  ("Dubstep uNk", "Dubstep/Bass"),
  ("ALLEYCVT", "Dubstep/Bass"),
  ("Flume", "Future Bass"),
  ("San Holo", "Future Bass"),
  ("Slushii", "Future Bass"),
  ("Marshmello", "Future Bass"),
  ("Louis The Child", "Future Bass"),
  ("Whethan", "Future Bass"),
  ("Ekali", "Future Bass"),
  ("ODESZA", "Future Bass"),
  ("Kasbo", "Future Bass"),
  ("Wave Racer", "Future Bass"),
  ("Grant", "Future Bass"),
  ("Laszlo", "Future Bass"),
  ("Hyper Potions", "Future Bass"),
  ("deadmau5", "Progressive House"),
  ("Eric Prydz", "Progressive House"),
  ("Above & Beyond", "Progressive House"),
  ("Lane 8", "Progressive House"),
  ("Ben Böhmer", "Progressive House"),
  ("Nora En Pure", "Progressive House"),
  ("Le Youth", "Progressive House"),
  ("Yotto", "Progressive House"),
  ("Spencer Brown", "Progressive House"),
  ("Tinlicker", "Progressive House"),
  ("Grum", "Progressive House"),
  ("Avicii", "Progressive House"),
  ("Swedish House Mafia", "Progressive House"),
  ("Martin Garrix", "Progressive House"),
  ("Alesso", "Progressive House"),
  ("Axwell", "Progressive House"),
  ("Sebastian Ingrosso", "Progressive House"),
  ("Kygo", "Progressive House"),
  ("Armin van Buuren", "Trance"),
  ("Andrew Rayel", "Trance"),
  ("Ferry Corsten", "Trance"),
  ("Aly & Fila", "Trance"),
  ("Cosmic Gate", "Trance"),
  ("Paul van Dyk", "Trance"),
  ("Markus Schulz", "Trance"),
  ("Giuseppe Ottaviani", "Trance"),
  ("Gareth Emery", "Trance"),
  ("Dash Berlin", "Trance"),
  ("Tritonal", "Trance"),
  ("ALPHA 9", "Trance"),
  ("Fisher", "Tech House"),
  ("Chris Lake", "Tech House"),
  ("John Summit", "Tech House"),
  ("Dom Dolla", "Tech House"),
  ("ACRAZE", "Tech House"),
  ("Matroda", "Tech House"),
  ("TESTPILOT", "Tech House"),
  ("Green Velvet", "Tech House"),
  ("Lee Foss", "Tech House"),
  ("Mau P", "Tech House"),
  ("James Hype", "Tech House"),
  ("Disclosure", "UK House"),
  ("Tchami", "UK House"),
  ("Habstrakt", "UK House"),
  ("AC Slater", "UK House"),
  ("Chris Lorenzo", "UK House"),
  ("Wax Motif", "UK House"),
  ("Noizu", "UK House"),
  ("JOYRYDE", "Bass House"),
  ("Valentino Khan", "Bass House"),
  ("Dr. Fresch", "Bass House"),
  ("Jauz", "Bass House"),
  ("Ghastly", "Bass House"),
  ("Drezo", "Bass House"),
  ("Moksi", "Bass House"),
  ("Netsky", "Drum & Bass"),
  ("Pendulum", "Drum & Bass"),
  ("Sub Focus", "Drum & Bass"),
  ("Andy C", "Drum & Bass"),
  ("Chase & Status", "Drum & Bass"),
  ("Dimension", "Drum & Bass"),
  ("Camo & Krooked", "Drum & Bass"),
  ("Fred V", "Drum & Bass"),
  ("Maduk", "Drum & Bass"),
  ("High Contrast", "Drum & Bass"),
  ("Wilkinson", "Drum & Bass"),
  ("Culture Shock", "Drum & Bass"),
  ("Metrik", "Drum & Bass"),
  ("ISOxo", "Trap/Bass"),
  ("WAVEDASH", "Dubstep/Bass"),
  ("Wavedash", "Dubstep/Bass"),
  ("RL Grime", "Trap/Bass"),
  ("Baauer", "Trap/Bass"),
  ("What So Not", "Trap/Bass"),
  ("Boombox Cartel", "Trap/Bass"),
  ("UZ", "Trap/Bass"),
  ("TroyBoi", "Trap/Bass"),
  ("TNGHT", "Trap/Bass"),
  ("Mr. Carmack", "Trap/Bass"),
  ("G Jones", "Trap/Bass"),
  ("Eprom", "Trap/Bass"),
  ("Alison Wonderland", "Trap/Bass"),
  ("Flosstradamus", "Trap/Bass"),
  ("Zedd", "Electro House"),
  ("Porter Robinson", "Electro House"),
  ("Wolfgang Gartner", "Electro House"),
  ("Feed Me", "Electro House"),
  ("Kill The Noise", "Electro House"),
  ("Dillon Francis", "Electro House"),
  ("Steve Aoki", "Electro House"),
  ("Afrojack", "Electro House"),
  ("R3HAB", "Electro House"),
  ("Dimitri Vegas & Like Mike", "Electro House"),
  ("The Chainsmokers", "Pop/EDM"),
  ("Calvin Harris", "Pop/EDM"),
  ("David Guetta", "Pop/EDM"),
  ("Tiësto", "Pop/EDM"),
  ("DJ Snake", "Pop/EDM"),
  ("Major Lazer", "Pop/EDM"),
  ("Diplo", "Pop/EDM"),
  ("Galantis", "Pop/EDM"),
  ("Clean Bandit", "Pop/EDM"),
  ("Alan Walker", "Pop/EDM"),
  ("Jonas Blue", "Pop/EDM"),
  ("Gryffin", "Pop/EDM"),
  ("NOTD", "Pop/EDM"),
  ("Quinn XCII", "Pop/EDM"),
  ("Lauv", "Pop/EDM"),
  ("Chelsea Cutler", "Pop/EDM"),
  ("Jeremy Zucker", "Pop/EDM"),
  ("Ellie Goulding", "Pop/EDM"),
  ("Dua Lipa", "Pop/EDM"),
  ("Sigala", "Pop/EDM"),
  ("Riton", "Pop/EDM"),
  ("RÜFÜS DU SOL", "Pop/EDM"),
  ("AURORA", "Electronic/Indie"),
  ("Glass Animals", "Electronic/Indie"),
  ("Tame Impala", "Electronic/Indie"),
  ("M83", "Electronic/Indie"),
  ("Sylvan Esso", "Electronic/Indie"),
  ("Purity Ring", "Electronic/Indie"),
  ("CHVRCHES", "Electronic/Indie"),
  ("Phantogram", "Electronic/Indie"),
  ("Tycho", "Electronic/Indie"),
  ("Bonobo", "Electronic/Indie"),
  ("Caribou", "Electronic/Indie"),
  ("Jamie xx", "Electronic/Indie"),
  ("Four Tet", "Electronic/Indie"),
  ("Jai Wolf", "Electronic/Indie"),
  ("Big Wild", "Electronic/Indie"),
  ("Petit Biscuit", "Electronic/Indie"),
  ("keshi", "Electronic/Indie"),
  ("Home", "Electronic/Indie"),
  ("BTS", "K-Pop"),
  ("BLACKPINK", "K-Pop"),
  ("TWICE", "K-Pop"),
  ("Red Velvet", "K-Pop"),
  ("EXO", "K-Pop"),
  ("NCT", "K-Pop"),
  ("NCT 127", "K-Pop"),
  ("NCT DREAM", "K-Pop"),
  ("Stray Kids", "K-Pop"),
  ("ENHYPEN", "K-Pop"),
  ("aespa", "K-Pop"),
  ("IVE", "K-Pop"),
  ("NewJeans", "K-Pop"),
  ("LE SSERAFIM", "K-Pop"),
  ("ITZY", "K-Pop"),
  ("TXT", "K-Pop"),
  ("SEVENTEEN", "K-Pop"),
  ("GOT7", "K-Pop"),
  ("MONSTA X", "K-Pop"),
  ("ATEEZ", "K-Pop"),
  ("THE BOYZ", "K-Pop"),
  ("(G)I-DLE", "K-Pop"),
  ("MAMAMOO", "K-Pop"),
  ("LOONA", "K-Pop"),
  ("TREASURE", "K-Pop"),
  ("IU", "K-Pop"),
  ("ROSÉ", "K-Pop"),
  ("LISA", "K-Pop"),
  ("Jennie", "K-Pop"),
  ("Jungkook", "K-Pop"),
  ("Jimin", "K-Pop"),
  ("V", "K-Pop"),
  ("j-hope", "K-Pop"),
  ("Agust D", "K-Pop"),
  ("RM", "K-Pop"),
  ("SUGA", "K-Pop"),
  ("Jin", "K-Pop"),
  ("BIBI", "K-Pop"),
  ("pH-1", "K-Pop"),
  ("Jay Park", "K-Pop"),
  ("DPR IAN", "K-Pop"),
  ("DPR LIVE", "K-Pop"),
  ("DEAN", "K-Pop"),
  ("Drake", "Hip-Hop"),
  ("Kendrick Lamar", "Hip-Hop"),
  ("J. Cole", "Hip-Hop"),
  ("Travis Scott", "Hip-Hop"),
  ("Post Malone", "Hip-Hop"),
  ("Juice WRLD", "Hip-Hop"),
  ("XXXTentacion", "Hip-Hop"),
  ("Lil Uzi Vert", "Hip-Hop"),
  ("Playboi Carti", "Hip-Hop"),
  ("Future", "Hip-Hop"),
  ("Metro Boomin", "Hip-Hop"),
  ("21 Savage", "Hip-Hop"),
  ("Baby Keem", "Hip-Hop"),
  ("Tyler, The Creator", "Hip-Hop"),
  ("A$AP Rocky", "Hip-Hop"),
  ("Mac Miller", "Hip-Hop"),
  ("Kid Cudi", "Hip-Hop"),
  ("Kanye West", "Hip-Hop"),
  ("Ye", "Hip-Hop"),
  ("JAY-Z", "Hip-Hop"),
  ("Eminem", "Hip-Hop"),
  ("Nas", "Hip-Hop"),
  ("J.I.D", "Hip-Hop"),
  ("Denzel Curry", "Hip-Hop"),
  ("Joey Bada$$", "Hip-Hop"),
  ("Vince Staples", "Hip-Hop"),
  ("ScHoolboy Q", "Hip-Hop"),
  ("BROCKHAMPTON", "Hip-Hop"),
  ("Jack Harlow", "Hip-Hop"),
  ("Lil Nas X", "Hip-Hop"),
  ("Doja Cat", "Hip-Hop"),
  ("Megan Thee Stallion", "Hip-Hop"),
  ("Cardi B", "Hip-Hop"),
  ("Nicki Minaj", "Hip-Hop"),
  ("SZA", "Hip-Hop"),
  ("The Weeknd", "Hip-Hop"),
  ("Don Toliver", "Hip-Hop"),
  ("Gunna", "Hip-Hop"),
  ("Young Thug", "Hip-Hop"),
  ("Lil Baby", "Hip-Hop"),
  ("DaBaby", "Hip-Hop"),
  ("Roddy Ricch", "Hip-Hop"),
  ("Pop Smoke", "Hip-Hop"),
  ("Taylor Swift", "Pop"),
  ("Ed Sheeran", "Pop"),
  ("Ariana Grande", "Pop"),
  ("Justin Bieber", "Pop"),
  ("Bruno Mars", "Pop"),
  ("Billie Eilish", "Pop"),
  ("Olivia Rodrigo", "Pop"),
  ("Harry Styles", "Pop"),
  ("Shawn Mendes", "Pop"),
  ("Camila Cabello", "Pop"),
  ("Selena Gomez", "Pop"),
  ("Rihanna", "Pop"),
  ("Lady Gaga", "Pop"),
  ("Katy Perry", "Pop"),
  ("Beyoncé", "Pop"),
  ("Britney Spears", "Pop"),
  ("Black Eyed Peas", "Pop"),
  ("Miley Cyrus", "Pop"),
  ("Halsey", "Pop"),
  ("Demi Lovato", "Pop"),
  ("Charlie Puth", "Pop"),
  ("Khalid", "Pop"),
  ("Bazzi", "Pop"),
  ("twenty one pilots", "Rock"),
  ("Imagine Dragons", "Rock"),
  ("Panic! At The Disco", "Rock"),
  ("Fall Out Boy", "Rock"),
  ("My Chemical Romance", "Rock"),
  ("Green Day", "Rock"),
  ("Blink-182", "Rock"),
  ("Linkin Park", "Rock"),
  ("Arctic Monkeys", "Rock"),
  ("The 1975", "Rock"),
  ("Coldplay", "Rock"),
  ("Muse", "Rock"),
  ("Foo Fighters", "Rock"),
  ("Radiohead", "Rock"),
  ("The Killers", "Rock"),
  ("Red Hot Chili Peppers", "Rock"),
  ("Hans Zimmer", "Cinematic"),
  ("Thomas Bergersen", "Cinematic"),
  ("Two Steps From Hell", "Cinematic"),
  ("Audiomachine", "Cinematic"),
  ("Artzie Music", "Cinematic"),
  ("Thomas Jack", "Tropical House"),
  ("Sam Feldt", "Tropical House"),
  ("Felix Jaehn", "Tropical House"),
  ("Lost Frequencies", "Tropical House"),
  ("Robin Schulz", "Tropical House"),
  ("REZZ", "Midtempo Bass"),
  ("1788-L", "Midtempo Bass"),
  ("Deathpact", "Midtempo Bass"),
  ("Lucii", "Midtempo Bass"),
  ("Proximity", "Pop/EDM"),
  ("NCS", "Pop/EDM"),
  ("Trap Nation", "Trap/Bass"),
  ("Bass Nation", "Dubstep/Bass"),
  ("Monstercat", "Electronic"),
  ("Revealed Recordings", "Progressive House"),
  ("OWSLA", "Dubstep/Bass"),
  ("Mad Decent", "Trap/Bass"),
  ("Anjunabeats", "Trance"),
  ("Anjunadeep", "Progressive House"),
  ("Brooks", "Progressive House"),
  ("Mesto", "Progressive House"),
  ("Mike Williams", "Progressive House"),
  ("Matisse & Sadko", "Progressive House"),
  ("DubVision", "Progressive House"),
  ("Nicky Romero", "Progressive House"),
  ("Hardwell", "Progressive House"),
  ("W&W", "Progressive House"),
  ("Arty", "Progressive House"),
  ("Audien", "Progressive House"),
  ("Hoang", "Pop/EDM"),
  ("Dylan Matthew", "Melodic Bass"),
  ("Bipolar Sunshine", "Pop/EDM"),
  ("Shaun Farrugia", "Pop/EDM"),
  ("Disco Lines", "House"),
  ("Frank Ocean", "R&B"),
  ("Daniel Caesar", "R&B"),
  ("Brent Faiyaz", "R&B"),
  ("Summer Walker", "R&B"),
  ("H.E.R.", "R&B"),
  ("Snoh Aalegra", "R&B"),
  ("6LACK", "R&B"),
  ("Giveon", "R&B"),
  ("Lucky Daye", "R&B"),
  ("dvsn", "R&B"),
  ("Anderson .Paak", "R&B"),
  ("blackbear", "R&B"),
  ("HAYLA", "Melodic Bass"),
  ("Ace Aura", "Melodic Bass"),
  ("INZO", "Melodic Bass"),
  ("SABAI", "Progressive House"),
  ("TheFatRat", "Pop/EDM"),
  ("Ganja White Night", "Dubstep/Bass"),
  ("Timmy Trumpet", "Progressive House"),
  ("Anyma", "Progressive House"),
  ("Edward Maya", "Pop/EDM"),
  ("K/DA", "Pop/EDM"),
  ("Owl City", "Electronic/Indie"),
  ("Lights", "Electronic/Indie"),
  ("Beach House", "Electronic/Indie"),
  ("Empire Of The Sun", "Electronic/Indie"),
  ("Henry Fong", "Electro House"),
  ("Lil Jon", "Hip-Hop"),
  ("Sean Kingston", "Pop"),
  ("Flowdan", "Dubstep/Bass"),
  ("runThis", "Pop/EDM"),
  ("GFRIEND", "K-Pop"),
  ("이달의 소녀", "K-Pop"),
  ("Chuu", "K-Pop"),
  ("Cigarettes After Sex", "Rock"),
  ("Jon Bellion", "Pop"),
  ("Train", "Pop"),
  ("Justin Timberlake", "Pop"),
  ("Clairo", "Pop"),
  ("PinkPantheress", "Pop"),
  ("Shakira", "Pop"),
  ("Madison Beer", "Pop"),
  ("Carly Rae Jepsen", "Pop"),
  ("Conan Gray", "Pop"),
  ("Maroon 5", "Pop"),
  ("Flo Rida", "Pop"),
  ("Pitbull", "Pop"),
  ("Sean Paul", "Pop"),
  ("LMFAO", "Pop"),
  ("will.i.am", "Pop"),
  ("Chris Brown", "Pop"),
  ("Usher", "Pop"),
  ("Jason Derulo", "Pop"),
  ("Ne-Yo", "Pop"),
  ("Bassjackers", "Electro House"),
  ("Tove Lo", "Pop"),
  ("Lost Lands Music Festival", "Dubstep/Bass"),
  ("Vicetone", "Progressive House"),
  ("David Bowie", "Rock"),
  ("Angels & Airwaves", "Rock"),
  ("wave to earth", "R&B"),
  ("Creedence Clearwater Revival", "Rock"),
  ("Avril Lavigne", "Rock"),
  ("Tape B", "Dubstep/Bass"),
  ("Sick Individuals", "Progressive House"),
  ("Troye Sivan", "Pop"),
  ("Far East Movement", "Hip-Hop"),
  ("DEV", "Pop"),
  ("Vika Jigulina", "Pop/EDM"),
  ("Level Up", "Dubstep/Bass"),
  ("Oliver Heldens", "Tech House"),
  ("Sergei Rachmaninoff", "Classical"),
  ("The Devil Wears Prada", "Rock"),
  ("EVAN GIIA", "Pop/EDM"),
  ("Kaivon", "Melodic Bass"),
  ("Sammy Virji", "UK House"),
  ("VALORANT", "Electronic"),
  ("Riovaz", "Electronic/Indie"),
  ("IVORY", "Pop/EDM"),
  ("Vindaloo Singh", "Pop/EDM"),
  ("Royal Philharmonic Orchestra", "Classical"),
  ("Steve Angello", "Progressive House"),
  ("Trevor Guthrie", "Pop/EDM"),
  ("Levity", "Melodic Bass"),
  ("Revive Music", "Electronic"),
  ("The Beatles", "Rock"),
  ("Guns N\x27 Roses", "Rock"),
  ("Fleetwood Mac", "Rock"),
  ("Queen", "Rock"),
  ("Led Zeppelin", "Rock"),
  ("Pink Floyd", "Rock"),
  ("Nirvana", "Rock"),
  ("AC/DC", "Rock"),
  ("Frédéric Chopin", "Classical"),
  ("Ludwig van Beethoven", "Classical"),
  ("Johann Sebastian Bach", "Classical"),
  ("Wolfgang Amadeus Mozart", "Classical"),
  ("Skepta", "Hip-Hop"),
  ("Stormzy", "Hip-Hop"),
  ("Dave", "Hip-Hop"),
  ("Central Cee", "Hip-Hop"),
  ("AJ Tracey", "Hip-Hop"),
  ("slowthai", "Hip-Hop"),
  ("PlaqueBoyMax", "Hip-Hop"),
  ("Casey Cook", "Melodic Bass"),
  ("April Bender", "Melodic Bass"),
  ("Jex", "Melodic Bass"),
  ("fussy", "Pop/EDM"),
  ("bbyclose", "Pop/EDM"),
  ("ISOKNOCK", "Pop/EDM"),
  ("cade clair", "Pop/EDM"),
  ("A Little Sound", "Pop/EDM"),
  ("DerekD2", "Pop/EDM")
]

/-- The `GENRE_PATTERNS` list of assign_genres.py (lines 550-562), with
each regular expression of the shape `\b(alt|...)\b` expanded into its
list of literal alternatives (`k-?pop` becomes the two literals "k-pop"
and "kpop", `hip-?hop` likewise). Every alternative starts and ends with
a word character, so the word-boundary test reduces to the neighbouring
characters not being word characters. -/
def GENRE_PATTERNS : List (List String × String) := [
  (["dubstep", "bass music", "brostep"], "Dubstep/Bass"),
  (["melodic dubstep", "melodic bass"], "Melodic Bass"),
  (["future bass"], "Future Bass"),
  (["drum and bass", "dnb", "d&b", "drum & bass"], "Drum & Bass"),
  (["progressive house", "prog house"], "Progressive House"),
  (["tech house"], "Tech House"),
  (["deep house"], "UK House"),
  (["trance", "psytrance"], "Trance"),
  (["trap"], "Trap/Bass"),
  (["k-pop", "kpop", "korean pop"], "K-Pop"),
  (["hip-hop", "hiphop", "rap"], "Hip-Hop")
]

/-- Python regex word character `\w`, approximated for this code base:
ASCII alphanumerics, underscore, and every non-ASCII character (the
non-ASCII characters appearing in the repository's artist names are all
letters). -/
def isWordChar (c : Char) : Bool := c.isAlphanum || c == '_' || decide (127 < c.toNat)

/-- When `lit` is a prefix of `s`, return the remaining suffix. -/
def dropLit : List Char → List Char → Option (List Char)
  | [], s => some s
  | _ :: _, [] => none
  | l :: ls, c :: cs => if l == c then dropLit ls cs else none

/-- Word boundary before a literal: start of text or a non-word character.
The argument is the character preceding the scanned suffix. -/
def boundaryOkBefore (prev : Option Char) : Bool :=
  match prev with
  | none => true
  | some c => !isWordChar c

/-- Word boundary after a literal: end of text or a non-word character. -/
def boundaryOkAfter : List Char → Bool
  | [] => true
  | c :: _ => !isWordChar c

/-- Search for `\b lit \b` anywhere in the text, for a literal that starts
and ends with word characters; `prev` is the character preceding the
scanned suffix (`none` at the start of the text). -/
def boundedSearch (lit : List Char) : Option Char → List Char → Bool
  | prev, [] =>
    boundaryOkBefore prev &&
      (match dropLit lit [] with
       | some rest => boundaryOkAfter rest
       | none => false)
  | prev, c :: cs =>
    (boundaryOkBefore prev &&
      (match dropLit lit (c :: cs) with
       | some rest => boundaryOkAfter rest
       | none => false)) || boundedSearch lit (some c) cs

/-- One regex pattern hit: `re.search` succeeds when some alternative of
the pattern occurs with word boundaries on both sides. -/
def patternHit (alts : List String) (s : String) : Bool :=
  alts.any (fun lit => boundedSearch lit.data none s.data)

/-- Stage 1 of the per-node genre resolution of `assign_genres`
(assign_genres.py 579-585): exact dict hit. -/
def exactMatch (name : String) : Option String := dictFind ARTIST_GENRES name

/-- Stage 2 (assign_genres.py 587-598): first table entry, in dict order,
whose key lowercases to the lowercased name. -/
def ciMatch (name : String) : Option String :=
  (ARTIST_GENRES.find? (fun p => pyLower p.1 == pyLower name)).map (·.2)

/-- Stage 3 (assign_genres.py 600-609): first table entry whose lowercased
key contains, or is contained in, the lowercased name. -/
def subMatch (name : String) : Option String :=
  (ARTIST_GENRES.find? (fun p =>
    strHas (pyLower p.1).data (pyLower name).data ||
    strHas (pyLower name).data (pyLower p.1).data)).map (·.2)

/-- Stage 4 (assign_genres.py 611-617): first keyword pattern matching the
lowercased name. -/
def patMatch (name : String) : Option String :=
  (GENRE_PATTERNS.find? (fun p => patternHit p.1 (pyLower name))).map (·.2)

/-- The full four-stage lookup: the sequential `continue`-threaded blocks
of assign_genres.py 579-617 stop at the first stage that hits. -/
def lookupGenre (name : String) : Option String :=
  match exactMatch name with
  | some g => some g
  | none =>
    match ciMatch name with
    | some g => some g
    | none =>
      match subMatch name with
      | some g => some g
      | none => patMatch name

/-- Node of the persisted graph snapshot as read back by assign_genres.py;
only the fields the passes touch are modelled, `Option` marking the keys
that are read through `.get`. -/
structure ANode where
  id : String
  name : Option String
  genre : Option String
deriving DecidableEq, Repr

/-- Link of the persisted graph snapshot, with its endpoints already in
string form (the passes accept either strings or node objects and extract
the id; only the id matters). -/
structure ALink where
  source : String
  target : String
deriving DecidableEq, Repr

/-- Graph snapshot as transformed by the genre passes. -/
structure AGraph where
  nodes : List ANode
  links : List ALink
deriving DecidableEq, Repr

/-- Per-node update of `assign_genres` (assign_genres.py 575-617): the
first lookup stage that hits replaces the genre, otherwise the node keeps
its current one. -/
def assignNode (n : ANode) : ANode :=
  match lookupGenre (n.name.getD "") with
  | some g => { n with genre := some g }
  | none => n

/-- Embedding of `assign_genres` (assign_genres.py 565-624), restricted to
its graph transformation (file I/O and report printing dropped). -/
def assign_genres (g : AGraph) : AGraph := { g with nodes := g.nodes.map assignNode }

/-- Undirected adjacency dict built from the links (assign_genres.py
665-676, likewise 741-750): both endpoints get an entry and each link
appends each endpoint to the other's neighbor list. -/
def buildConnections (links : List ALink) : List (String × List String) :=
  links.foldl (fun m l =>
    let m := ensureAt m l.source []
    let m := ensureAt m l.target []
    let m := updateAt m l.source (fun v => v ++ [l.target])
    updateAt m l.target (fun v => v ++ [l.source])) []

/-- The `node_map` dict of the passes: `{n['id']: n for n in nodes}` keeps
the last node for a duplicated id, and because the passes mutate the node
objects in place, a lookup sees the current state of the node list. -/
def lookupNode (ns : List ANode) (i : String) : Option ANode :=
  ns.reverse.find? (fun n => n.id == i)

/-- Python `max(d.items(), key=value)` over a counting dict: the first
entry with the maximal count wins ties. -/
def maxByCount (l : List (String × Nat)) : String × Nat :=
  match l with
  | [] => ("", 0)
  | p :: rest => rest.foldl (fun best q => if best.2 < q.2 then q else best) p

/-- Neighbor evidence tally (assign_genres.py 692-697): count the genres
of those connected nodes whose current genre is not `Other`. -/
def genreCounts (ns : List ANode) (neigh : List String) : List (String × Nat) :=
  neigh.foldl (fun gc cid =>
    match lookupNode ns cid with
    | some cn =>
      let g := cn.genre.getD "Other"
      if g ≠ "Other" then bumpCount gc g else gc
    | none => gc) []

/-- The confidence test of assign_genres.py line 710,
`top_count / total_conns > 0.6`, with the float division modelled as
exact rational division (the counts involved are far below the range
where the two could disagree). -/
def shareExceeds (top total : Nat) : Prop := ((top : ℚ) / (total : ℚ)) > 0.6

/-- The rational confidence test is equivalent to an integer one (with
`top/0 = 0`, matching the convention that an empty tally never passes). -/
theorem shareExceeds_iff (top total : Nat) :
    shareExceeds top total ↔ 0 < total ∧ 3 * total < 5 * top := by
  unfold shareExceeds
  rcases Nat.eq_zero_or_pos total with h | h
  · subst h
    simp only [Nat.cast_zero, div_zero]
    norm_num
  · have hq : (0 : ℚ) < (total : ℚ) := by exact_mod_cast h
    rw [gt_iff_lt, lt_div_iff₀ hq]
    constructor
    · intro hlt
      refine ⟨h, ?_⟩
      have hrw : (0.6 : ℚ) * total = (3 * total : ℚ) / 5 := by ring
      rw [hrw] at hlt
      have h5 : (0 : ℚ) < 5 := by norm_num
      rw [div_lt_iff₀ h5] at hlt
      exact_mod_cast (by push_cast at hlt ⊢; linarith :
        ((3 * total : ℕ) : ℚ) < ((5 * top : ℕ) : ℚ))
    · rintro ⟨-, hlt⟩
      have hc : ((3 * total : ℕ) : ℚ) < ((5 * top : ℕ) : ℚ) := by exact_mod_cast hlt
      push_cast at hc
      nlinarith

instance (top total : Nat) : Decidable (shareExceeds top total) :=
  decidable_of_iff _ (shareExceeds_iff top total).symm

/-- Processing of one node position inside `infer_genres_from_connections`
(assign_genres.py 683-712); the node list is the in-place mutated state,
so nodes promoted earlier in the same pass already count as evidence. -/
def inferNode (conns : List (String × List String)) (ns : List ANode) (i : Nat) : List ANode :=
  match ns[i]? with
  | none => ns
  | some node =>
    if node.genre ≠ some "Other" then ns
    else
      match dictFind conns node.id with
      | none => ns
      | some neigh =>
        let gc := genreCounts ns neigh
        if gc.isEmpty then ns
        else
          let top := maxByCount gc
          let total := (gc.map (·.2)).sum
          if top.1 = "K-Pop" then ns
          else if 3 ≤ top.2 ∧ shareExceeds top.2 total then
            ns.set i { node with genre := some top.1 }
          else ns

/-- The `GENRE_FAMILIES` table declared at the top of
`infer_genres_from_connections` (assign_genres.py 649-659). The body of
the function never reads it; it is reproduced only for completeness. -/
def GENRE_FAMILIES : List (String × List String) := [
  ("EDM", ["Melodic Bass", "Dubstep/Bass", "Future Bass", "Progressive House",
           "Trance", "Tech House", "UK House", "Bass House", "Electro House",
           "Trap/Bass", "Drum & Bass", "Pop/EDM", "Electronic/Indie", "Midtempo Bass",
           "Tropical House", "House", "Electro Soul", "Electronic"]),
  ("K-Pop", ["K-Pop"]),
  ("Hip-Hop", ["Hip-Hop", "R&B"]),
  ("Pop", ["Pop"]),
  ("Rock", ["Rock"]),
  ("Classical", ["Classical", "Cinematic"])
]

/-- Embedding of `infer_genres_from_connections` (assign_genres.py
641-716), restricted to its graph transformation. The `min_connections`
parameter (default 2 in the source signature, passed as 1 by `__main__`)
is accepted but, exactly as in the source body, never read. -/
def infer_genres_from_connections (g : AGraph) (min_connections : Nat) : AGraph :=
  let conns := buildConnections g.links
  { g with nodes := (List.range g.nodes.length).foldl (inferNode conns) g.nodes }

/-- The `edm_genres` set of `assign_fallback_genre` (assign_genres.py
733-735); note it contains "Electronic/Indie" but not "Electronic", so
nodes labelled by the fallback itself never count as EDM evidence. -/
def edm_genres : List String :=
  ["Melodic Bass", "Dubstep/Bass", "Future Bass", "Progressive House", "Trance",
   "Tech House", "UK House", "Bass House", "Electro House", "Trap/Bass", "Drum & Bass",
   "Pop/EDM", "Electronic/Indie", "Midtempo Bass", "Tropical House", "House"]

/-- Processing of one node position inside `assign_fallback_genre`
(assign_genres.py 755-773). -/
def fallbackNode (conns : List (String × List String)) (ns : List ANode) (i : Nat) : List ANode :=
  match ns[i]? with
  | none => ns
  | some node =>
    if node.genre ≠ some "Other" then ns
    else
      match dictFind conns node.id with
      | none => ns
      | some neigh =>
        let has_edm := neigh.any (fun cid =>
          match lookupNode ns cid with
          | some cn => edm_genres.contains (cn.genre.getD "Other")
          | none => false)
        if has_edm then ns.set i { node with genre := some "Electronic" } else ns

/-- Embedding of `assign_fallback_genre` (assign_genres.py 730-788),
restricted to its graph transformation. -/
def assign_fallback_genre (g : AGraph) : AGraph :=
  let conns := buildConnections g.links
  { g with nodes := (List.range g.nodes.length).foldl (fallbackNode conns) g.nodes }

/-- One genre-propagation pass, as iterated by `__main__`
(assign_genres.py 791-799). -/
inductive GenrePass
  | infer (min_connections : Nat)
  | fallback
deriving DecidableEq, Repr

/-- Apply one pass. -/
def applyGenrePass : GenrePass → AGraph → AGraph
  | .infer k, g => infer_genres_from_connections g k
  | .fallback, g => assign_fallback_genre g

/-- Apply a sequence of propagation passes left to right. -/
def applyGenrePasses (ps : List GenrePass) (g : AGraph) : AGraph :=
  ps.foldl (fun g p => applyGenrePass p g) g

/-! Generic lemmas about the fold-based dict operations used above. -/

/-- An invariant preserved by every step of a pure fold survives the fold. -/
theorem foldl_preserve {α σ : Type} (step : σ → α → σ) (Inv : σ → Prop) :
    ∀ (l : List α) (acc : σ), (∀ acc x, x ∈ l → Inv acc → Inv (step acc x)) →
      Inv acc → Inv (l.foldl step acc) := by
  intro l
  induction l with
  | nil => intro acc _ h; exact h
  | cons x xs ih =>
    intro acc hstep h
    simp only [List.foldl_cons]
    exact ih (step acc x) (fun a y hy ha => hstep a y (List.mem_cons_of_mem _ hy) ha)
      (hstep acc x (List.mem_cons_self _ _) h)

/-- Reduction of `Except` bind on a success. -/
theorem except_bind_ok {α β : Type} (a : α) (f : α → Except String β) :
    (Except.ok a >>= f) = f a := rfl

/-- Reduction of `Except` bind on an error. -/
theorem except_bind_error {α β : Type} (e : String) (f : α → Except String β) :
    ((Except.error e : Except String α) >>= f) = Except.error e := rfl

/-- Reduction of `pure` in the `Except` monad. -/
theorem except_pure {α : Type} (a : α) : (pure a : Except String α) = Except.ok a := rfl

/-- An invariant preserved by every successful step of an effectful fold
holds for a successful fold result. -/
theorem foldlM_ok_preserve {α σ : Type} (step : σ → α → Except String σ) (Inv : σ → Prop) :
    ∀ (l : List α) (acc res : σ),
      (∀ acc x acc', x ∈ l → step acc x = .ok acc' → Inv acc → Inv acc') →
      l.foldlM step acc = .ok res → Inv acc → Inv res := by
  intro l
  induction l with
  | nil =>
    intro acc res _ hfold h
    rw [List.foldlM_nil, except_pure] at hfold
    cases hfold
    exact h
  | cons x xs ih =>
    intro acc res hstep hfold h
    rw [List.foldlM_cons] at hfold
    cases hs : step acc x with
    | error e => rw [hs, except_bind_error] at hfold; cases hfold
    | ok acc' =>
      rw [hs, except_bind_ok] at hfold
      exact ih acc' res (fun a y a' hy => hstep a y a' (List.mem_cons_of_mem _ hy)) hfold
        (hstep acc x acc' (List.mem_cons_self _ _) hs h)

/-- An effectful fold whose every step can succeed succeeds. -/
theorem foldlM_ok_of_all {α σ : Type} (step : σ → α → Except String σ) :
    ∀ (l : List α) (acc : σ), (∀ acc x, x ∈ l → ∃ acc', step acc x = .ok acc') →
      ∃ res, l.foldlM step acc = .ok res := by
  intro l
  induction l with
  | nil => intro acc _; exact ⟨acc, rfl⟩
  | cons x xs ih =>
    intro acc hstep
    obtain ⟨acc', hs⟩ := hstep acc x (List.mem_cons_self _ _)
    obtain ⟨res, hres⟩ := ih acc' (fun a y hy => hstep a y (List.mem_cons_of_mem _ hy))
    exact ⟨res, by rw [List.foldlM_cons, hs, except_bind_ok]; exact hres⟩

/-- Successful `listMapM` results are pointwise successful applications. -/
theorem listMapM_ok_forall₂ {α β : Type} (f : α → Except String β) :
    ∀ (l : List α) (ys : List β), listMapM f l = .ok ys →
      List.Forall₂ (fun x y => f x = .ok y) l ys := by
  intro l
  induction l with
  | nil =>
    intro ys h
    rw [listMapM] at h
    cases h
    exact List.Forall₂.nil
  | cons x xs ih =>
    intro ys h
    rw [listMapM] at h
    cases hf : f x with
    | error e => rw [hf, except_bind_error] at h; cases h
    | ok y =>
      rw [hf, except_bind_ok] at h
      cases hrest : listMapM f xs with
      | error e => rw [hrest, except_bind_error] at h; cases h
      | ok ys' =>
        rw [hrest, except_bind_ok, except_pure] at h
        cases h
        exact List.Forall₂.cons hf (ih ys' hrest)

/-- A `listMapM` whose every application can succeed succeeds. -/
theorem listMapM_ok_of_all {α β : Type} (f : α → Except String β) :
    ∀ l : List α, (∀ x ∈ l, ∃ y, f x = .ok y) → ∃ ys, listMapM f l = .ok ys := by
  intro l
  induction l with
  | nil => exact fun _ => ⟨[], rfl⟩
  | cons x xs ih =>
    intro h
    obtain ⟨y, hy⟩ := h x (List.mem_cons_self _ _)
    obtain ⟨ys, hys⟩ := ih (fun a ha => h a (List.mem_cons_of_mem _ ha))
    exact ⟨y :: ys, by rw [listMapM, hy, except_bind_ok, hys, except_bind_ok, except_pure]⟩

/-- Left-to-right membership transfer along a pointwise relation. -/
theorem forall₂_mem_left {α β : Type} {R : α → β → Prop} :
    ∀ {l₁ : List α} {l₂ : List β}, List.Forall₂ R l₁ l₂ → ∀ x ∈ l₁, ∃ y ∈ l₂, R x y := by
  intro l₁ l₂ h
  induction h with
  | nil => intro x hx; cases hx
  | cons hr _ ih =>
    intro x hx
    rcases List.mem_cons.mp hx with rfl | hx'
    · exact ⟨_, List.mem_cons_self _ _, hr⟩
    · obtain ⟨y, hy, hxy⟩ := ih x hx'
      exact ⟨y, List.mem_cons_of_mem _ hy, hxy⟩

/-- Right-to-left membership transfer along a pointwise relation. -/
theorem forall₂_mem_right {α β : Type} {R : α → β → Prop} :
    ∀ {l₁ : List α} {l₂ : List β}, List.Forall₂ R l₁ l₂ → ∀ y ∈ l₂, ∃ x ∈ l₁, R x y := by
  intro l₁ l₂ h
  induction h with
  | nil => intro y hy; cases hy
  | cons hr _ ih =>
    intro y hy
    rcases List.mem_cons.mp hy with rfl | hy'
    · exact ⟨_, List.mem_cons_self _ _, hr⟩
    · obtain ⟨x, hx, hxy⟩ := ih y hy'
      exact ⟨x, List.mem_cons_of_mem _ hx, hxy⟩

/-- Pointwise-related lists have equal images under pointwise-agreeing maps. -/
theorem forall₂_map_eq {α β γ : Type} {R : α → β → Prop} (f : α → γ) (g : β → γ)
    (hfg : ∀ x y, R x y → f x = g y) :
    ∀ {l₁ : List α} {l₂ : List β}, List.Forall₂ R l₁ l₂ → l₁.map f = l₂.map g := by
  intro l₁ l₂ h
  induction h with
  | nil => rfl
  | cons hr _ ih => simp only [List.map_cons, hfg _ _ hr, ih]

/-- The initial accumulator is bounded by a max-fold. -/
theorem init_le_foldl_max : ∀ (xs : List Nat) (a : Nat), a ≤ xs.foldl Nat.max a := by
  intro xs
  induction xs with
  | nil => intro a; exact le_refl a
  | cons y ys ih =>
    intro a
    exact le_trans (Nat.le_max_left a y) (ih (Nat.max a y))

/-- Every list element is bounded by a max-fold over the list. -/
theorem le_foldl_max : ∀ (xs : List Nat) (a x : Nat), x ∈ xs → x ≤ xs.foldl Nat.max a := by
  intro xs
  induction xs with
  | nil => intro a x hx; cases hx
  | cons y ys ih =>
    intro a x hx
    rcases List.mem_cons.mp hx with rfl | hx'
    · exact le_trans (Nat.le_max_right a x) (init_le_foldl_max ys (Nat.max a x))
    · exact ih (Nat.max a y) x hx'

/-- Asymmetry of the code-point order on character lists. -/
theorem listLtChars_asymm :
    ∀ (as bs : List Char), listLtChars as bs = true → listLtChars bs as = false := by
  intro as
  induction as with
  | nil =>
    intro bs h
    cases bs with
    | nil => simp [listLtChars] at h
    | cons b bs' => rfl
  | cons a as' ih =>
    intro bs h
    cases bs with
    | nil => simp [listLtChars] at h
    | cons b bs' =>
      rw [listLtChars] at h ⊢
      by_cases hab : a < b
      · have hba : ¬ b < a := lt_asymm hab
        rw [if_neg hba, if_pos hab]
      · by_cases hba : b < a
        · rw [if_neg hab, if_pos hba] at h
          cases h
        · rw [if_neg hab, if_neg hba] at h
          rw [if_neg hba, if_neg hab]
          exact ih bs' h

/-- The two possible outputs of `sortPair`. -/
theorem sortPair_cases (a b : String) : sortPair a b = (a, b) ∨ sortPair a b = (b, a) := by
  by_cases h : pyStrLt b a = true
  · rw [sortPair, if_pos h]; exact Or.inr rfl
  · rw [sortPair, if_neg h]; exact Or.inl rfl

/-- `sortPair` is idempotent on its own output. -/
theorem sortPair_canon (a b : String) :
    sortPair (sortPair a b).1 (sortPair a b).2 = sortPair a b := by
  by_cases h : pyStrLt b a = true
  · have hab : sortPair a b = (b, a) := by rw [sortPair, if_pos h]
    rw [hab]
    show sortPair b a = (b, a)
    have hf : pyStrLt a b = false := listLtChars_asymm _ _ h
    rw [sortPair, hf]
    simp
  · have hab : sortPair a b = (a, b) := by rw [sortPair, if_neg h]
    rw [hab]
    exact hab

/-- A sorted pair over two keys is a well-formed canonical pair. -/
def PairOk (keys : List String) (p : String × String) : Prop :=
  p.1 ∈ keys ∧ p.2 ∈ keys ∧ sortPair p.1 p.2 = p

/-- Canonical pairs arise from sorting pairs of keys. -/
theorem pairOk_sortPair {keys : List String} {a b : String} (ha : a ∈ keys) (hb : b ∈ keys) :
    PairOk keys (sortPair a b) := by
  have hcanon := sortPair_canon a b
  rcases sortPair_cases a b with h | h
  · rw [h] at hcanon ⊢
    exact ⟨ha, hb, hcanon⟩
  · rw [h] at hcanon ⊢
    exact ⟨hb, ha, hcanon⟩

/-- Appending a fresh element preserves `Nodup`. -/
theorem nodup_append_singleton {α : Type} {l : List α} {a : α} (h : l.Nodup) (ha : a ∉ l) :
    (l ++ [a]).Nodup := by
  rw [List.nodup_append]
  refine ⟨h, List.nodup_singleton a, ?_⟩
  intro x hx hxa
  rw [List.mem_singleton] at hxa
  subst hxa
  exact ha hx

/-- Keys of a bump: unchanged when the key exists, appended otherwise. -/
theorem bumpCount_keys {α : Type} [DecidableEq α] :
    ∀ (cc : List (α × Nat)) (k : α),
      (bumpCount cc k).map Prod.fst =
        if k ∈ cc.map Prod.fst then cc.map Prod.fst else cc.map Prod.fst ++ [k] := by
  intro cc
  induction cc with
  | nil => intro k; simp [bumpCount]
  | cons e rest ih =>
    intro k
    obtain ⟨a, n⟩ := e
    by_cases hak : a = k
    · subst hak
      rw [bumpCount, if_pos rfl]
      simp [List.mem_cons]
    · rw [bumpCount, if_neg hak]
      simp only [List.map_cons]
      rw [ih k]
      by_cases hk : k ∈ rest.map Prod.fst
      · rw [if_pos hk, if_pos (by exact List.mem_cons_of_mem _ hk)]
      · rw [if_neg hk, if_neg (by
          intro hmem
          rcases List.mem_cons.mp hmem with h1 | h2
          · exact hak h1.symm
          · exact hk h2)]
        simp

/-- Every entry of a bump either carries the bumped key or was present. -/
theorem mem_bumpCount {α : Type} [DecidableEq α] :
    ∀ (cc : List (α × Nat)) (k : α) (e : α × Nat), e ∈ bumpCount cc k →
      e.1 = k ∨ e ∈ cc := by
  intro cc
  induction cc with
  | nil =>
    intro k e he
    rw [bumpCount] at he
    rcases List.mem_singleton.mp he with rfl
    exact Or.inl rfl
  | cons p rest ih =>
    intro k e he
    obtain ⟨a, n⟩ := p
    by_cases hak : a = k
    · subst hak
      rw [bumpCount, if_pos rfl] at he
      rcases List.mem_cons.mp he with rfl | h2
      · exact Or.inl rfl
      · exact Or.inr (List.mem_cons_of_mem _ h2)
    · rw [bumpCount, if_neg hak] at he
      rcases List.mem_cons.mp he with rfl | h2
      · exact Or.inr (List.mem_cons_self _ _)
      · rcases ih k e h2 with h3 | h4
        · exact Or.inl h3
        · exact Or.inr (List.mem_cons_of_mem _ h4)

/-- The collaboration-count dict invariant: canonical, duplicate-free keys
whose components are node keys. -/
def CollabInv (keys : List String) (cc : List ((String × String) × Nat)) : Prop :=
  (cc.map Prod.fst).Nodup ∧ ∀ e ∈ cc, PairOk keys e.1

/-- Bumping a canonical pair preserves the invariant. -/
theorem collabInv_bump {keys : List String} {cc : List ((String × String) × Nat)}
    (k : String × String) (h : CollabInv keys cc) (hk : PairOk keys k) :
    CollabInv keys (bumpCount cc k) := by
  obtain ⟨hnd, hall⟩ := h
  constructor
  · rw [bumpCount_keys]
    by_cases hmem : k ∈ cc.map Prod.fst
    · rw [if_pos hmem]; exact hnd
    · rw [if_neg hmem]; exact nodup_append_singleton hnd hmem
  · intro e he
    rcases mem_bumpCount cc k e he with h1 | h2
    · rw [h1]; exact hk
    · exact hall e h2

/-- A successful dict lookup means the key is present. -/
theorem dictFind_isSome_mem {β : Type} {m : List (String × β)} {k : String} :
    (dictFind m k).isSome → k ∈ m.map Prod.fst := by
  intro h
  unfold dictFind at h
  cases hf : m.find? (fun p => p.1 == k) with
  | none => rw [hf] at h; cases h
  | some p =>
    have hp := List.find?_some hf
    have hmem := List.mem_of_find?_eq_some hf
    have hpk : p.1 = k := eq_of_beq hp
    rw [← hpk]
    exact List.mem_map_of_mem _ hmem

/-- A failed dict lookup means the key is absent. -/
theorem dictFind_none_not_mem {β : Type} {m : List (String × β)} {k : String} :
    dictFind m k = none → k ∉ m.map Prod.fst := by
  intro h hk
  obtain ⟨p, hp, hpk⟩ := List.mem_map.mp hk
  unfold dictFind at h
  cases hf : m.find? (fun p => p.1 == k) with
  | some q => rw [hf] at h; cases h
  | none =>
    have hnone := List.find?_eq_none.mp hf p hp
    apply hnone
    simp [hpk]

/-- Keys of `appendAt`: unchanged when the key exists, appended otherwise. -/
theorem appendAt_keys {α : Type} :
    ∀ (gs : List (String × List α)) (a : String) (s : α),
      (appendAt gs a s).map Prod.fst =
        if a ∈ gs.map Prod.fst then gs.map Prod.fst else gs.map Prod.fst ++ [a] := by
  intro gs
  induction gs with
  | nil => intro a s; simp [appendAt]
  | cons p rest ih =>
    intro a s
    obtain ⟨b, l⟩ := p
    by_cases hba : b = a
    · subst hba
      rw [appendAt, if_pos rfl]
      simp [List.mem_cons]
    · rw [appendAt, if_neg hba]
      simp only [List.map_cons]
      rw [ih a s]
      by_cases hk : a ∈ rest.map Prod.fst
      · rw [if_pos hk, if_pos (by exact List.mem_cons_of_mem _ hk)]
      · rw [if_neg hk, if_neg (by
          intro hmem
          rcases List.mem_cons.mp hmem with h1 | h2
          · exact hba h1.symm
          · exact hk h2)]
        simp

/-- Characterization of `appendAt` entries under duplicate-free keys. -/
theorem mem_appendAt_of_nodup {α : Type} :
    ∀ (gs : List (String × List α)) (a : String) (s : α), (gs.map Prod.fst).Nodup →
      ∀ e ∈ appendAt gs a s,
        (e.1 ≠ a ∧ e ∈ gs) ∨
        (e.1 = a ∧ a ∉ gs.map Prod.fst ∧ e = (a, [s])) ∨
        (e.1 = a ∧ ∃ l, (a, l) ∈ gs ∧ e = (a, l ++ [s])) := by
  intro gs
  induction gs with
  | nil =>
    intro a s _ e he
    rw [appendAt] at he
    rcases List.mem_singleton.mp he with rfl
    exact Or.inr (Or.inl ⟨rfl, by simp, rfl⟩)
  | cons p rest ih =>
    intro a s hnd e he
    obtain ⟨b, l⟩ := p
    simp only [List.map_cons, List.nodup_cons] at hnd
    obtain ⟨hbmem, hndr⟩ := hnd
    by_cases hba : b = a
    · subst hba
      rw [appendAt, if_pos rfl] at he
      rcases List.mem_cons.mp he with rfl | h2
      · exact Or.inr (Or.inr ⟨rfl, l, List.mem_cons_self _ _, rfl⟩)
      · left
        refine ⟨?_, List.mem_cons_of_mem _ h2⟩
        intro h1
        exact hbmem (h1 ▸ List.mem_map_of_mem Prod.fst h2)
    · rw [appendAt, if_neg hba] at he
      rcases List.mem_cons.mp he with rfl | h2
      · exact Or.inl ⟨hba, List.mem_cons_self _ _⟩
      · rcases ih a s hndr e h2 with ⟨h3, h4⟩ | ⟨h3, h4, h5⟩ | ⟨h3, l', h4, h5⟩
        · exact Or.inl ⟨h3, List.mem_cons_of_mem _ h4⟩
        · refine Or.inr (Or.inl ⟨h3, ?_, h5⟩)
          intro hmem
          rcases List.mem_cons.mp hmem with h6 | h7
          · exact hba h6.symm
          · exact h4 h7
        · exact Or.inr (Or.inr ⟨h3, l', List.mem_cons_of_mem _ h4, h5⟩)

/-- Invariant of the grouping fold of `groupSongs` over the processed
prefix: duplicate-free keys, each group is exactly the matching filter of
the prefix (hence nonempty), and every processed song's artist owns a
key. -/
def GroupInv (processed : List Song) (gs : List (String × List Song)) : Prop :=
  (gs.map Prod.fst).Nodup ∧
  (∀ e ∈ gs, e.2 = processed.filter (fun s => s.artist == some e.1) ∧ e.2 ≠ []) ∧
  (∀ s ∈ processed, ∀ a, s.artist = some a → a ∈ gs.map Prod.fst)

/-- One grouping step preserves the invariant. -/
theorem groupInv_step {processed : List Song} {gs : List (String × List Song)}
    {s : Song} {a : String} (hs : s.artist = some a) (h : GroupInv processed gs) :
    GroupInv (processed ++ [s]) (appendAt gs a s) := by
  obtain ⟨hnd, hfil, hcomp⟩ := h
  refine ⟨?_, ?_, ?_⟩
  · rw [appendAt_keys]
    by_cases hmem : a ∈ gs.map Prod.fst
    · rw [if_pos hmem]; exact hnd
    · rw [if_neg hmem]; exact nodup_append_singleton hnd hmem
  · intro e he
    rcases mem_appendAt_of_nodup gs a s hnd e he with ⟨hne, hmem⟩ | ⟨heq, hnotmem, heqe⟩ |
      ⟨heq, l, hl, heqe⟩
    · obtain ⟨hf, hne'⟩ := hfil e hmem
      refine ⟨?_, hne'⟩
      rw [List.filter_append, hf]
      have hskip : List.filter (fun t => t.artist == some e.1) [s] = [] := by
        simp only [List.filter, hs]
        have : (some a == some e.1) = false := by
          rw [beq_eq_false_iff_ne]
          intro hcontra
          exact hne (Option.some_injective _ hcontra).symm
        rw [this]
      rw [hskip, List.append_nil]
    · subst heqe
      refine ⟨?_, by simp⟩
      show [s] = _
      rw [List.filter_append]
      have hempty : processed.filter (fun t => t.artist == some a) = [] := by
        rw [List.filter_eq_nil_iff]
        intro t ht hta
        exact hnotmem (hcomp t ht a (eq_of_beq hta))
      rw [hempty]
      simp [hs]
    · subst heqe
      obtain ⟨hf, _⟩ := hfil (a, l) hl
      refine ⟨?_, by simp⟩
      show l ++ [s] = _
      rw [List.filter_append]
      have := hf
      simp only at this
      rw [← this]
      simp [hs]
  · intro t ht b htb
    rw [appendAt_keys]
    have htarget : ∀ (keys : List String), b ∈ keys → b ∈ (if a ∈ gs.map Prod.fst
        then gs.map Prod.fst else gs.map Prod.fst ++ [a]) ∨ True := fun _ _ => Or.inr trivial
    rcases List.mem_append.mp ht with h1 | h2
    · have hmem := hcomp t h1 b htb
      by_cases hin : a ∈ gs.map Prod.fst
      · rw [if_pos hin]; exact hmem
      · rw [if_neg hin]; exact List.mem_append_left _ hmem
    · rcases List.mem_singleton.mp h2 with rfl
      have hba : b = a := by
        rw [hs] at htb
        exact (Option.some_injective _ htb).symm
      subst hba
      by_cases hin : b ∈ gs.map Prod.fst
      · rw [if_pos hin]; exact hin
      · rw [if_neg hin]; exact List.mem_append_right _ (List.mem_singleton_self b)

/-- Preservation of a prefix-indexed invariant through a successful
effectful fold. -/
theorem foldlM_ok_preserve_prefix {α σ : Type} (step : σ → α → Except String σ)
    (Inv : List α → σ → Prop) :
    ∀ (l : List α) (processed : List α) (acc res : σ),
      (∀ pro acc x acc', step acc x = .ok acc' → Inv pro acc → Inv (pro ++ [x]) acc') →
      l.foldlM step acc = .ok res → Inv processed acc → Inv (processed ++ l) res := by
  intro l
  induction l with
  | nil =>
    intro processed acc res _ hfold h
    rw [List.foldlM_nil, except_pure] at hfold
    cases hfold
    simpa using h
  | cons x xs ih =>
    intro processed acc res hstep hfold h
    rw [List.foldlM_cons] at hfold
    cases hs : step acc x with
    | error e => rw [hs, except_bind_error] at hfold; cases hfold
    | ok acc' =>
      rw [hs, except_bind_ok] at hfold
      have h' := hstep processed acc x acc' hs h
      have hres := ih (processed ++ [x]) acc' res hstep hfold h'
      simpa [List.append_assoc] using hres

/-- A successful grouping satisfies the grouping invariant for the whole
input. -/
theorem groupSongs_spec (songs : List Song) (gs : List (String × List Song))
    (h : groupSongs songs = .ok gs) : GroupInv songs gs := by
  have base : GroupInv [] [] := by
    refine ⟨List.nodup_nil, ?_, ?_⟩ <;> intro e he <;> cases he
  have h' : songs.foldlM (fun gs s => do
      let a ← require s.artist "artist"
      pure (appendAt gs a s)) [] = .ok gs := h
  have hmain := foldlM_ok_preserve_prefix _ GroupInv songs [] [] gs ?_ h' base
  · simpa using hmain
  · intro pro acc s acc' hstep hinv
    cases ha : s.artist with
    | none =>
      rw [ha] at hstep
      have hr : require (none : Option String) "artist" =
          Except.error ("KeyError: " ++ "artist") := rfl
      rw [hr, except_bind_error] at hstep
      cases hstep
    | some a =>
      rw [ha] at hstep
      have hr : require (some a) "artist" = Except.ok a := rfl
      rw [hr, except_bind_ok, except_pure] at hstep
      cases hstep
      exact groupInv_step ha hinv

/-- Members of `orderedPairs` are members of the underlying list. -/
theorem mem_orderedPairs {α : Type} :
    ∀ (l : List α) (p : α × α), p ∈ orderedPairs l → p.1 ∈ l ∧ p.2 ∈ l := by
  intro l
  induction l with
  | nil => intro p hp; cases hp
  | cons x xs ih =>
    intro p hp
    rw [orderedPairs, List.mem_append] at hp
    rcases hp with h1 | h2
    · obtain ⟨y, hy, rfl⟩ := List.mem_map.mp h1
      exact ⟨List.mem_cons_self _ _, List.mem_cons_of_mem _ hy⟩
    · obtain ⟨h3, h4⟩ := ih p h2
      exact ⟨List.mem_cons_of_mem _ h3, List.mem_cons_of_mem _ h4⟩

/-- The first linking pass builds a well-formed collaboration dict. -/
theorem collabPass1_inv (gs : List (String × List Song)) :
    CollabInv (gs.map Prod.fst) (collabPass1 gs) := by
  unfold collabPass1
  refine foldl_preserve _ (CollabInv (gs.map Prod.fst)) gs [] ?_
    ⟨List.nodup_nil, by intro e he; cases he⟩
  intro cc g hg hinv
  refine foldl_preserve _ _ g.2 cc ?_ hinv
  intro cc' s hs hinv'
  by_cases hlen : s.all_artists.length > 1
  · rw [if_pos hlen]
    refine foldl_preserve _ _ (s.all_artists.drop 1) cc' ?_ hinv'
    intro cc'' other hother hinv''
    by_cases hmem : (dictFind gs other).isSome = true
    · rw [if_pos hmem]
      exact collabInv_bump _ hinv''
        (pairOk_sortPair (List.mem_map_of_mem _ hg) (dictFind_isSome_mem hmem))
    · rw [if_neg hmem]; exact hinv''
  · rw [if_neg hlen]; exact hinv'

/-- One title-scanning inner fold of the second pass preserves the dict
invariant, for any canonical pair over the keys. -/
theorem collabPass2_inner_inv {keys : List String} {pair : String × String}
    (hPairOk : PairOk keys pair) (other : String) (songs : List Song) :
    ∀ (acc res : List ((String × String) × Nat)),
      songs.foldlM (fun cc s => do
        let t ← require s.title "title"
        pure (if strHas (pyLower other).data (pyLower t).data then
          bumpCount cc pair else cc)) acc = .ok res →
      CollabInv keys acc → CollabInv keys res := by
  intro acc res hfold hinv
  refine foldlM_ok_preserve _ (CollabInv keys) _ _ _ ?_ hfold hinv
  intro a s a' hs hstep hi
  cases hts : s.title with
  | none =>
    rw [hts] at hstep
    have hr : require (none : Option String) "title" =
        Except.error ("KeyError: " ++ "title") := rfl
    rw [hr, except_bind_error] at hstep
    cases hstep
  | some t =>
    rw [hts] at hstep
    have hr : require (some t) "title" = Except.ok t := rfl
    rw [hr, except_bind_ok, except_pure] at hstep
    cases hstep
    by_cases hx : strHas (pyLower other).data (pyLower t).data = true
    · rw [if_pos hx]; exact collabInv_bump _ hi hPairOk
    · rw [if_neg hx]; exact hi

/-- The second linking pass preserves the dict invariant. -/
theorem collabPass2_inv {gs : List (String × List Song)}
    {cc₀ cc : List ((String × String) × Nat)}
    (h : collabPass2 gs cc₀ = .ok cc) (hinv : CollabInv (gs.map Prod.fst) cc₀) :
    CollabInv (gs.map Prod.fst) cc := by
  unfold collabPass2 at h
  refine foldlM_ok_preserve _ (CollabInv (gs.map Prod.fst)) _ _ _ ?_ h hinv
  intro acc p acc' hp hstep hinvp
  obtain ⟨hp1, hp2⟩ := mem_orderedPairs gs p hp
  have hPairOk : PairOk (gs.map Prod.fst) (sortPair p.1.1 p.2.1) :=
    pairOk_sortPair (List.mem_map_of_mem _ hp1) (List.mem_map_of_mem _ hp2)
  cases hinner : p.1.2.foldlM (fun cc s => do
      let t ← require s.title "title"
      pure (if strHas (pyLower p.2.1).data (pyLower t).data then
        bumpCount cc (sortPair p.1.1 p.2.1) else cc)) acc with
  | error e => rw [hinner, except_bind_error] at hstep; cases hstep
  | ok mid =>
    rw [hinner, except_bind_ok] at hstep
    have hmid := collabPass2_inner_inv hPairOk p.2.1 p.1.2 acc mid hinner hinvp
    exact collabPass2_inner_inv hPairOk p.1.1 p.2.2 mid acc' hstep hmid

/-- The links materialized from a well-formed dict: endpoints are node
keys. -/
theorem mkLinks_endpoints {keys : List String} {cc : List ((String × String) × Nat)}
    (hinv : CollabInv keys cc) :
    ∀ l ∈ mkLinks cc, l.source ∈ keys ∧ l.target ∈ keys := by
  obtain ⟨-, hall⟩ := hinv
  intro l hl
  rw [mkLinks] at hl
  obtain ⟨e, he, hfe⟩ := List.mem_filterMap.mp hl
  by_cases hw : e.2 > 0
  · rw [if_pos hw] at hfe
    cases hfe
    obtain ⟨h1, h2, -⟩ := hall e he
    exact ⟨h1, h2⟩
  · rw [if_neg hw] at hfe; cases hfe

/-- The canonical pairs of the materialized links are the keys of the
positive-weight dict entries. -/
theorem mkLinks_map_pair :
    ∀ (cc : List ((String × String) × Nat)), (∀ e ∈ cc, sortPair e.1.1 e.1.2 = e.1) →
      (mkLinks cc).map (fun l => sortPair l.source l.target) =
        (cc.filter (fun e => decide (e.2 > 0))).map Prod.fst := by
  intro cc
  induction cc with
  | nil => intro _; rfl
  | cons e rest ih =>
    intro hall
    rw [mkLinks, List.filterMap_cons, List.filter_cons]
    by_cases hw : e.2 > 0
    · rw [if_pos hw, if_pos (decide_eq_true hw)]
      simp only [List.map_cons]
      rw [← mkLinks, ih (fun x hx => hall x (List.mem_cons_of_mem _ hx))]
      have he := hall e (List.mem_cons_self _ _)
      simp only [he]
    · rw [if_neg hw, if_neg (by simp [hw])]
      rw [← mkLinks, ih (fun x hx => hall x (List.mem_cons_of_mem _ hx))]

/-- The materialized links of a well-formed dict carry pairwise-distinct
unordered endpoint pairs. -/
theorem mkLinks_nodup {keys : List String} {cc : List ((String × String) × Nat)}
    (hinv : CollabInv keys cc) :
    ((mkLinks cc).map (fun l => sortPair l.source l.target)).Nodup := by
  obtain ⟨hnd, hall⟩ := hinv
  rw [mkLinks_map_pair cc (fun e he => (hall e he).2.2)]
  exact List.Nodup.sublist (List.Sublist.map _ (List.filter_sublist _)) hnd

/-- Shape analysis of one inference step: either nothing changes, or an
`Other` node is promoted to a genre that is not "K-Pop". -/
theorem inferNode_shape (conns : List (String × List String)) (ns : List ANode) (i : Nat) :
    inferNode conns ns i = ns ∨
    ∃ node top, ns[i]? = some node ∧ node.genre = some "Other" ∧ top ≠ "K-Pop" ∧
      inferNode conns ns i = ns.set i { node with genre := some top } := by
  unfold inferNode
  cases h : ns[i]? with
  | none => exact Or.inl rfl
  | some node =>
    dsimp only
    by_cases hg : node.genre ≠ some "Other"
    · rw [if_pos hg]; exact Or.inl rfl
    · rw [if_neg hg]
      push_neg at hg
      cases hc : dictFind conns node.id with
      | none => exact Or.inl rfl
      | some neigh =>
        dsimp only
        by_cases hgc : (genreCounts ns neigh).isEmpty = true
        · rw [if_pos hgc]; exact Or.inl rfl
        · rw [if_neg hgc]
          by_cases hk : (maxByCount (genreCounts ns neigh)).1 = "K-Pop"
          · rw [if_pos hk]; exact Or.inl rfl
          · rw [if_neg hk]
            by_cases hcond : 3 ≤ (maxByCount (genreCounts ns neigh)).2 ∧
                shareExceeds (maxByCount (genreCounts ns neigh)).2
                  ((genreCounts ns neigh).map (·.2)).sum
            · rw [if_pos hcond]
              exact Or.inr ⟨node, _, rfl, hg, hk, rfl⟩
            · rw [if_neg hcond]; exact Or.inl rfl

/-- Shape analysis of one fallback step: either nothing changes, or an
`Other` node is set to "Electronic". -/
theorem fallbackNode_shape (conns : List (String × List String)) (ns : List ANode) (i : Nat) :
    fallbackNode conns ns i = ns ∨
    ∃ node, ns[i]? = some node ∧ node.genre = some "Other" ∧
      fallbackNode conns ns i = ns.set i { node with genre := some "Electronic" } := by
  unfold fallbackNode
  cases h : ns[i]? with
  | none => exact Or.inl rfl
  | some node =>
    dsimp only
    by_cases hg : node.genre ≠ some "Other"
    · rw [if_pos hg]; exact Or.inl rfl
    · rw [if_neg hg]
      push_neg at hg
      cases hc : dictFind conns node.id with
      | none => exact Or.inl rfl
      | some neigh =>
        dsimp only
        by_cases hedm : (neigh.any (fun cid =>
            match lookupNode ns cid with
            | some cn => edm_genres.contains (cn.genre.getD "Other")
            | none => false)) = true
        · rw [if_pos hedm]
          exact Or.inr ⟨node, rfl, hg, rfl⟩
        · rw [if_neg hedm]; exact Or.inl rfl

/-- One inference step never touches a node whose genre is final. -/
theorem inferNode_preserves (conns : List (String × List String)) (ns : List ANode)
    (i j : Nat) (nd : ANode) (hj : ns[j]? = some nd) (hnd : nd.genre ≠ some "Other") :
    (inferNode conns ns i)[j]? = some nd := by
  rcases inferNode_shape conns ns i with heq | ⟨node, top, hi, hOther, -, heq⟩
  · rw [heq]; exact hj
  · rw [heq]
    by_cases hij : i = j
    · subst hij
      rw [hi] at hj
      cases hj
      exact absurd hOther hnd
    · rw [List.getElem?_set_ne hij]; exact hj

/-- One fallback step never touches a node whose genre is final. -/
theorem fallbackNode_preserves (conns : List (String × List String)) (ns : List ANode)
    (i j : Nat) (nd : ANode) (hj : ns[j]? = some nd) (hnd : nd.genre ≠ some "Other") :
    (fallbackNode conns ns i)[j]? = some nd := by
  rcases fallbackNode_shape conns ns i with heq | ⟨node, hi, hOther, heq⟩
  · rw [heq]; exact hj
  · rw [heq]
    by_cases hij : i = j
    · subst hij
      rw [hi] at hj
      cases hj
      exact absurd hOther hnd
    · rw [List.getElem?_set_ne hij]; exact hj

/-- Folding inference steps over any index list preserves final nodes. -/
theorem foldl_inferNode_preserves (conns : List (String × List String)) :
    ∀ (idxs : List Nat) (ns : List ANode) (j : Nat) (nd : ANode),
      ns[j]? = some nd → nd.genre ≠ some "Other" →
      (idxs.foldl (inferNode conns) ns)[j]? = some nd := by
  intro idxs
  induction idxs with
  | nil => intro ns j nd hj _; exact hj
  | cons i rest ih =>
    intro ns j nd hj hnd
    simp only [List.foldl_cons]
    exact ih _ j nd (inferNode_preserves conns ns i j nd hj hnd) hnd

/-- Folding fallback steps over any index list preserves final nodes. -/
theorem foldl_fallbackNode_preserves (conns : List (String × List String)) :
    ∀ (idxs : List Nat) (ns : List ANode) (j : Nat) (nd : ANode),
      ns[j]? = some nd → nd.genre ≠ some "Other" →
      (idxs.foldl (fallbackNode conns) ns)[j]? = some nd := by
  intro idxs
  induction idxs with
  | nil => intro ns j nd hj _; exact hj
  | cons i rest ih =>
    intro ns j nd hj hnd
    simp only [List.foldl_cons]
    exact ih _ j nd (fallbackNode_preserves conns ns i j nd hj hnd) hnd

/-- A node that carries "K-Pop" after an inference step already carried it
before: inference never promotes to "K-Pop". -/
theorem inferNode_no_kpop (conns : List (String × List String)) (ns : List ANode)
    (i j : Nat) (nd' : ANode) (h : (inferNode conns ns i)[j]? = some nd')
    (hk : nd'.genre = some "K-Pop") : ns[j]? = some nd' := by
  rcases inferNode_shape conns ns i with heq | ⟨node, top, hi, hOther, hktop, heq⟩
  · rw [heq] at h; exact h
  · rw [heq] at h
    by_cases hij : i = j
    · subst hij
      have hlen : i < ns.length := (List.getElem?_eq_some.mp hi).1
      rw [List.getElem?_set_eq_of_lt _ hlen] at h
      cases h
      exact absurd (Option.some_injective _ hk) hktop
    · rw [List.getElem?_set_ne hij] at h; exact h

/-- Folding inference steps never introduces "K-Pop". -/
theorem foldl_inferNode_no_kpop (conns : List (String × List String)) :
    ∀ (idxs : List Nat) (ns : List ANode) (j : Nat) (nd' : ANode),
      (idxs.foldl (inferNode conns) ns)[j]? = some nd' → nd'.genre = some "K-Pop" →
      ns[j]? = some nd' := by
  intro idxs
  induction idxs with
  | nil => intro ns j nd' h _; exact h
  | cons i rest ih =>
    intro ns j nd' h hk
    simp only [List.foldl_cons] at h
    exact inferNode_no_kpop conns ns i j nd' (ih _ j nd' h hk) hk

/-- Entry analysis for `updateAt`: entries are old or the updated key. -/
theorem mem_updateAt {β : Type} (k : String) (f : β → β) :
    ∀ (m : List (String × β)) (x : String × β), x ∈ updateAt m k f →
      x ∈ m ∨ ∃ b, (k, b) ∈ m ∧ x = (k, f b) := by
  intro m
  induction m with
  | nil => intro x hx; rw [updateAt] at hx; cases hx
  | cons p rest ih =>
    intro x hx
    obtain ⟨a, b⟩ := p
    by_cases hak : a = k
    · subst hak
      rw [updateAt, if_pos rfl] at hx
      rcases List.mem_cons.mp hx with rfl | h2
      · exact Or.inr ⟨b, List.mem_cons_self _ _, rfl⟩
      · exact Or.inl (List.mem_cons_of_mem _ h2)
    · rw [updateAt, if_neg hak] at hx
      rcases List.mem_cons.mp hx with rfl | h2
      · exact Or.inl (List.mem_cons_self _ _)
      · rcases ih x h2 with h3 | ⟨b', hb', rfl⟩
        · exact Or.inl (List.mem_cons_of_mem _ h3)
        · exact Or.inr ⟨b', List.mem_cons_of_mem _ hb', rfl⟩

/-- `updateAt` on a freshly appended key updates exactly that entry. -/
theorem updateAt_append_fresh {β : Type} (k : String) (f : β → β) (d : β) :
    ∀ (m : List (String × β)), k ∉ m.map Prod.fst →
      updateAt (m ++ [(k, d)]) k f = m ++ [(k, f d)] := by
  intro m
  induction m with
  | nil => intro _; simp [updateAt]
  | cons p rest ih =>
    intro hk
    obtain ⟨a, b⟩ := p
    simp only [List.map_cons, List.mem_cons] at hk
    push_neg at hk
    obtain ⟨hak, hkr⟩ := hk
    rw [List.cons_append, updateAt, if_neg (fun h => hak h.symm), ih hkr, List.cons_append]

/-- The per-artist song accumulators of `sGroup` are never empty. -/
def SGroupInv (ad : List (String × SArtistData)) : Prop := ∀ e ∈ ad, e.2.songs ≠ []

/-- Every artist entry built by `sGroup` holds at least one song. -/
theorem sGroup_songs_ne_nil (songs : List SSong) : SGroupInv (sGroup songs) := by
  unfold sGroup
  refine foldl_preserve _ SGroupInv songs [] ?_ (by intro e he; cases he)
  intro ad s hs hinv
  have hbase : SGroupInv (updateAt (ensureAt ad s.artist ⟨[], []⟩) s.artist
      (fun d => { d with songs := d.songs ++ [s] })) := by
    by_cases hmem : (dictFind ad s.artist).isSome = true
    · rw [show ensureAt ad s.artist ⟨[], []⟩ = ad from by rw [ensureAt, if_pos hmem]]
      intro e he
      rcases mem_updateAt _ _ ad e he with h1 | ⟨b, hb, rfl⟩
      · exact hinv e h1
      · simp
    · have hnone : dictFind ad s.artist = none :=
        Option.not_isSome_iff_eq_none.mp (by simpa using hmem)
      rw [show ensureAt ad s.artist ⟨[], []⟩ = ad ++ [(s.artist, ⟨[], []⟩)] from by
        rw [ensureAt, if_neg hmem]]
      rw [updateAt_append_fresh _ _ _ ad (dictFind_none_not_mem hnone)]
      intro e he
      rcases List.mem_append.mp he with h1 | h2
      · exact hinv e h1
      · rcases List.mem_singleton.mp h2 with rfl
        simp
  refine foldl_preserve _ SGroupInv _ _ ?_ hbase
  intro ad' c hc hinv'
  intro e he
  rcases mem_updateAt _ _ ad' e he with h1 | ⟨b, hb, rfl⟩
  · exact hinv' e h1
  · simpa using hinv' (s.artist, b) hb

/-- Invariant of the spotify link fold: the seen set is exactly the links'
canonical pairs, it is duplicate-free, and endpoints are keys. -/
def SLinkInv (keys : List String) (st : List Link × List (String × String)) : Prop :=
  st.2 = st.1.map (fun l => sortPair l.source l.target) ∧
  st.2.Nodup ∧
  ∀ l ∈ st.1, l.source ∈ keys ∧ l.target ∈ keys

/-- The spotify link fold keeps its invariant. -/
theorem sLinks_inv (ad : List (String × SArtistData)) :
    SLinkInv (ad.map Prod.fst) (sLinks ad) := by
  unfold sLinks
  refine foldl_preserve _ (SLinkInv (ad.map Prod.fst)) ad ([], [])
    ?_ ⟨rfl, List.nodup_nil, by intro l hl; cases hl⟩
  intro st g hg hinv
  refine foldl_preserve _ _ g.2.collaborators st ?_ hinv
  intro st' collab hcollab hinv'
  obtain ⟨hmap, hnd, hall⟩ := hinv'
  by_cases hmem : (dictFind ad collab).isSome = true
  · rw [if_pos hmem]
    by_cases hseen : st'.2.contains (sortPair g.1 collab) = true
    · rw [if_pos hseen]; exact ⟨hmap, hnd, hall⟩
    · rw [if_neg hseen]
      have hnotin : sortPair g.1 collab ∉ st'.2 := fun hmm => hseen (by simpa using hmm)
      refine ⟨?_, ?_, ?_⟩
      · show st'.2 ++ [sortPair g.1 collab] = _
        rw [List.map_append, ← hmap, List.map_singleton]
      · exact nodup_append_singleton hnd hnotin
      · intro l hl
        rcases List.mem_append.mp hl with h1 | h2
        · exact hall l h1
        · rcases List.mem_singleton.mp h2 with rfl
          exact ⟨List.mem_map_of_mem _ hg, dictFind_isSome_mem hmem⟩
  · rw [if_neg hmem]; exact ⟨hmap, hnd, hall⟩

/-- `require` succeeds exactly on present keys. -/
theorem require_ok {α : Type} {o : Option α} {key : String} {a : α} :
    require o key = .ok a ↔ o = some a := by
  cases o <;> simp [require]

/-- Inversion of a successful node construction: the node's fields are the
group's statistics and its songs are the first 20 titles of the group. -/
theorem mkNode_ok {gm : List (String × String)} {lfm : String → Option String}
    {M : Nat} {e : String × List Song} {n : Node}
    (h : mkNode gm lfm M e = .ok n) :
    n.id = e.1 ∧ n.song_count = e.2.length ∧
    n.importance = (e.2.length : ℚ) / (M : ℚ) ∧
    List.Forall₂ (fun (s : Song) (t : SongRef) => s.title = some t.title)
      (e.2.take 20) n.songs := by
  unfold mkNode at h
  cases ht : listMapM (fun s => require s.title "title") (e.2.take 20) with
  | error er => rw [ht, except_bind_error] at h; cases h
  | ok ts =>
    rw [ht, except_bind_ok, except_pure] at h
    cases h
    refine ⟨rfl, rfl, rfl, ?_⟩
    have h2 := listMapM_ok_forall₂ _ _ _ ht
    rw [List.forall₂_map_right_iff]
    exact List.Forall₂.imp (fun s y hy => require_ok.mp hy) h2

/-- Inversion of a successful graph build into its stages. -/
theorem build_ok_inv {gm : List (String × String)} {lfm : String → Option String}
    {songs : List Song} {g : Graph}
    (h : build_graph_from_songs gm lfm songs = .ok g) :
    ∃ gs cc,
      groupSongs songs = .ok gs ∧
      List.Forall₂ (fun e n => mkNode gm lfm (maxSongs gs) e = .ok n) gs g.nodes ∧
      collabPass2 gs (collabPass1 gs) = .ok cc ∧
      g.links = mkLinks cc ∧
      g.stats = ⟨g.nodes.length, (mkLinks cc).length, g.nodes.length, 0⟩ := by
  unfold build_graph_from_songs at h
  cases hgs : groupSongs songs with
  | error e => rw [hgs, except_bind_error] at h; cases h
  | ok gs =>
    rw [hgs, except_bind_ok] at h
    cases hns : listMapM (mkNode gm lfm (maxSongs gs)) gs with
    | error e => rw [hns, except_bind_error] at h; cases h
    | ok nodes =>
      rw [hns, except_bind_ok] at h
      cases hcc : collabPass2 gs (collabPass1 gs) with
      | error e => rw [hcc, except_bind_error] at h; cases h
      | ok cc =>
        rw [hcc, except_bind_ok, except_pure] at h
        cases h
        exact ⟨gs, cc, rfl, listMapM_ok_forall₂ _ _ _ hns, hcc, rfl, rfl⟩

/-- The dedup fold only extends its accumulator, by a sublist of the
input. -/
theorem dedupFold_extends :
    ∀ (l : List RSong) (st : List String × List RSong),
      ∃ r, (l.foldl dedupStep st).2 = st.2 ++ r ∧ r.Sublist l := by
  intro l
  induction l with
  | nil => intro st; exact ⟨[], by simp, List.nil_sublist []⟩
  | cons s rest ih =>
    intro st
    rw [List.foldl_cons]
    by_cases hc : st.1.contains s.title = true
    · obtain ⟨r, hr, hsub⟩ := ih (dedupStep st s)
      refine ⟨r, ?_, hsub.cons s⟩
      rw [hr, dedupStep, if_pos hc]
    · obtain ⟨r, hr, hsub⟩ := ih (dedupStep st s)
      refine ⟨s :: r, ?_, hsub.cons₂ s⟩
      rw [hr, dedupStep, if_neg hc]
      simp

/-- Invariant of the dedup fold: the seen set is exactly the accumulated
titles, and they are duplicate-free. -/
def DedupInv (st : List String × List RSong) : Prop :=
  st.1 = st.2.map RSong.title ∧ st.1.Nodup

/-- The dedup fold keeps its invariant. -/
theorem dedupFold_inv (l : List RSong) (st : List String × List RSong) (h : DedupInv st) :
    DedupInv (l.foldl dedupStep st) := by
  refine foldl_preserve _ DedupInv l st ?_ h
  intro acc s hs hinv
  obtain ⟨hmap, hnd⟩ := hinv
  by_cases hc : acc.1.contains s.title = true
  · rw [dedupStep, if_pos hc]; exact ⟨hmap, hnd⟩
  · rw [dedupStep, if_neg hc]
    refine ⟨by rw [hmap]; simp, ?_⟩
    exact nodup_append_singleton hnd (fun hmem => hc (by simpa using hmem))

/-- Coverage of the dedup fold: every input title survives. -/
theorem dedupFold_covers :
    ∀ (l : List RSong) (st : List String × List RSong), DedupInv st →
      ∀ s ∈ l, ∃ t ∈ (l.foldl dedupStep st).2, t.title = s.title := by
  intro l
  induction l with
  | nil => intro st _ s hs; cases hs
  | cons s0 rest ih =>
    intro st hinv s hs
    rw [List.foldl_cons]
    rcases List.mem_cons.mp hs with rfl | hs'
    · have hstep : ∃ t ∈ (dedupStep st s).2, t.title = s.title := by
        by_cases hc : st.1.contains s.title = true
        · have hmem : s.title ∈ st.2.map RSong.title := by
            rw [← hinv.1]
            simpa using hc
          obtain ⟨t, ht, htt⟩ := List.mem_map.mp hmem
          exact ⟨t, by rw [dedupStep, if_pos hc]; exact ht, htt⟩
        · refine ⟨s, ?_, rfl⟩
          rw [dedupStep, if_neg hc]
          exact List.mem_append_right _ (List.mem_singleton_self s)
      obtain ⟨t, ht, htt⟩ := hstep
      obtain ⟨r, hr, -⟩ := dedupFold_extends rest (dedupStep st s)
      exact ⟨t, by rw [hr]; exact List.mem_append_left _ ht, htt⟩
    · have hinv' : DedupInv (dedupStep st s0) := by
        have hone := dedupFold_inv [s0] st hinv
        simpa using hone
      exact ih (dedupStep st s0) hinv' s hs'

/-- Every song the CSV parser emits has a nonempty title and artist. -/
theorem parse_csv_wf (rows : List Row) :
    ∀ s ∈ parse_csv_file rows,
      (∃ t, s.title = some t ∧ t ≠ "") ∧ (∃ a, s.artist = some a ∧ a ≠ "") := by
  unfold parse_csv_file
  refine foldl_preserve _
    (fun songs : List Song => ∀ s ∈ songs,
      (∃ t, s.title = some t ∧ t ≠ "") ∧ (∃ a, s.artist = some a ∧ a ≠ ""))
    rows [] ?_ (by intro s hs; cases hs)
  intro acc row hrow hinv s hs
  by_cases hc : csvTitle row ≠ "" ∧ csvArtist row ≠ ""
  · rw [if_pos hc] at hs
    rcases List.mem_append.mp hs with h1 | h2
    · exact hinv s h1
    · rcases List.mem_singleton.mp h2 with rfl
      exact ⟨⟨csvTitle row, rfl, hc.1⟩, ⟨csvArtist row, rfl, hc.2⟩⟩
  · rw [if_neg hc] at hs
    exact hinv s hs

/-- A song list whose members all carry a title and an artist builds
without a KeyError. -/
theorem build_ok_of_wf (gm : List (String × String)) (lfm : String → Option String)
    (songs : List Song) (hwf : ∀ s ∈ songs, s.title.isSome ∧ s.artist.isSome) :
    ∃ g, build_graph_from_songs gm lfm songs = .ok g := by
  have hstep1 : ∀ (acc : List (String × List Song)) (s : Song), s ∈ songs →
      ∃ acc', (do
        let a ← require s.artist "artist"
        pure (appendAt acc a s) : Except String (List (String × List Song))) = .ok acc' := by
    intro acc s hs
    obtain ⟨a, ha⟩ := Option.isSome_iff_exists.mp (hwf s hs).2
    refine ⟨appendAt acc a s, ?_⟩
    rw [ha]
    rfl
  obtain ⟨gs, hgs'⟩ := foldlM_ok_of_all _ songs [] hstep1
  have hgs : groupSongs songs = .ok gs := hgs'
  obtain ⟨hnd, hfil, -⟩ := groupSongs_spec songs gs hgs
  have hmem_songs : ∀ e ∈ gs, ∀ s ∈ e.2, s ∈ songs := by
    intro e he s hsm
    have hf := (hfil e he).1
    rw [hf] at hsm
    exact List.mem_of_mem_filter hsm
  have hnodes : ∃ ns, listMapM (mkNode gm lfm (maxSongs gs)) gs = .ok ns := by
    refine listMapM_ok_of_all _ gs ?_
    intro e he
    have htitles : ∃ ts, listMapM (fun s => require s.title "title") (e.2.take 20) = .ok ts := by
      refine listMapM_ok_of_all _ _ ?_
      intro s hs
      have hsSongs : s ∈ songs := hmem_songs e he s (List.mem_of_mem_take hs)
      obtain ⟨t, ht⟩ := Option.isSome_iff_exists.mp (hwf s hsSongs).1
      exact ⟨t, by rw [ht]; rfl⟩
    obtain ⟨ts, hts⟩ := htitles
    unfold mkNode
    rw [hts, except_bind_ok, except_pure]
    exact ⟨_, rfl⟩
  obtain ⟨ns, hns⟩ := hnodes
  have hcc : ∃ cc, collabPass2 gs (collabPass1 gs) = .ok cc := by
    unfold collabPass2
    refine foldlM_ok_of_all _ _ _ ?_
    intro acc p hp
    dsimp only
    obtain ⟨hp1, hp2⟩ := mem_orderedPairs gs p hp
    have hinner : ∀ (other : String) (lsongs : List Song), (∀ s ∈ lsongs, s ∈ songs) →
        ∀ acc0 : List ((String × String) × Nat), ∃ mid, lsongs.foldlM (fun cc s => do
          let t ← require s.title "title"
          pure (if strHas (pyLower other).data (pyLower t).data then
            bumpCount cc (sortPair p.1.1 p.2.1) else cc)) acc0 = .ok mid := by
      intro other lsongs hls acc0
      refine foldlM_ok_of_all _ _ _ ?_
      intro a s hs
      obtain ⟨t, ht⟩ := Option.isSome_iff_exists.mp (hwf s (hls s hs)).1
      rw [ht]
      exact ⟨_, rfl⟩
    obtain ⟨mid, hmid⟩ := hinner p.2.1 p.1.2 (fun s hs => hmem_songs p.1 hp1 s hs) acc
    obtain ⟨res, hres⟩ := hinner p.1.1 p.2.2 (fun s hs => hmem_songs p.2 hp2 s hs) mid
    exact ⟨res, by rw [hmid, except_bind_ok]; exact hres⟩
  obtain ⟨cc, hccok⟩ := hcc
  unfold build_graph_from_songs
  rw [hgs, except_bind_ok, hns, except_bind_ok, hccok, except_bind_ok]
  exact ⟨_, rfl⟩

/-! Concrete scenario inputs for the claim theorems. -/

/-- The Last.fm client with no API key configured: always `None`. -/
def noLastfm : String → Option String := fun _ => none

/-- The spec scenario observations for the graph builder: two songs that
both co-credit A and B, with "X" primary A and "Y" primary B. -/
def c1Songs : List Song :=
  [{ title := some "X", artist := some "A", all_artists := ["A", "B"] },
   { title := some "Y", artist := some "B", all_artists := ["A", "B"] }]

/-- The graph the builder actually emits on `c1Songs` (both importances
are 1/1). -/
def c1Graph : Graph :=
  { nodes := [{ id := "A", name := "A", song_count := 1,
                importance := ((1 : Nat) : ℚ) / ((1 : Nat) : ℚ), in_library := true,
                genre := "Other", songs := [⟨"X"⟩] },
              { id := "B", name := "B", song_count := 1,
                importance := ((1 : Nat) : ℚ) / ((1 : Nat) : ℚ), in_library := true,
                genre := "Other", songs := [⟨"Y"⟩] }],
    links := [⟨"A", "B", 1, "collaboration"⟩, ⟨"B", "B", 1, "collaboration"⟩],
    stats := ⟨2, 2, 2, 0⟩ }

/-- The same graph without its rational fields. -/
def c1Shape : GraphShape :=
  { nodes := [⟨"A", "A", 1, true, "Other", [⟨"X"⟩]⟩, ⟨"B", "B", 1, true, "Other", [⟨"Y"⟩]⟩],
    links := [⟨"A", "B", 1, "collaboration"⟩, ⟨"B", "B", 1, "collaboration"⟩],
    stats := ⟨2, 2, 2, 0⟩ }

/-- Two observations of the same song title by the same artist. -/
def c2Songs : List Song :=
  [{ title := some "X", artist := some "A" }, { title := some "X", artist := some "A" }]

/-- The shape of the graph built from `c2Songs`: song_count 2 and a songs
list with the duplicated title kept twice. -/
def c2Shape : GraphShape :=
  { nodes := [⟨"A", "A", 2, true, "Other", [⟨"X"⟩, ⟨"X"⟩]⟩], links := [], stats := ⟨1, 0, 1, 0⟩ }

/-- A single well-formed observation. -/
def oneSong : List Song := [{ title := some "X", artist := some "A" }]

/-- The unique node of the graph built from `oneSong`. -/
def c8wNode : Node :=
  { id := "A", name := "A", song_count := 1,
    importance := ((1 : Nat) : ℚ) / ((1 : Nat) : ℚ), in_library := true,
    genre := "Other", songs := [⟨"X"⟩] }

/-- The graph built from `oneSong`. -/
def c8wGraph : Graph := { nodes := [c8wNode], links := [], stats := ⟨1, 0, 1, 0⟩ }

/-- A malformed observation: no title. -/
def c6NoTitle : List Song := [{ title := none, artist := some "A" }]

/-- A malformed observation: no artist. -/
def c6NoArtist : List Song := [{ title := some "X", artist := none }]

/-- Two CSV rows: a complete one and one missing its artist columns. -/
def c6Rows : List Row :=
  [[("Song Title", "X"), ("Artist Name 1", "A")], [("Song Title", "Y")]]

/-- The single song the parser keeps from `c6Rows`. -/
def c6Parsed : Song :=
  { title := some "X", artist := some "A", all_artists := ["A"], album := some "" }

/-- The spec scenario for inference: an `Other` node with three
"Dubstep/Bass" neighbors and one "Trance" neighbor. -/
def c3Graph : AGraph :=
  { nodes := [⟨"N", some "N", some "Other"⟩, ⟨"D1", some "D1", some "Dubstep/Bass"⟩,
              ⟨"D2", some "D2", some "Dubstep/Bass"⟩, ⟨"D3", some "D3", some "Dubstep/Bass"⟩,
              ⟨"T1", some "T1", some "Trance"⟩],
    links := [⟨"N", "D1"⟩, ⟨"N", "D2"⟩, ⟨"N", "D3"⟩, ⟨"N", "T1"⟩] }

/-- `c3Graph` with node N promoted to "Dubstep/Bass". -/
def c3GraphPromoted : AGraph :=
  { nodes := [⟨"N", some "N", some "Dubstep/Bass"⟩, ⟨"D1", some "D1", some "Dubstep/Bass"⟩,
              ⟨"D2", some "D2", some "Dubstep/Bass"⟩, ⟨"D3", some "D3", some "Dubstep/Bass"⟩,
              ⟨"T1", some "T1", some "Trance"⟩],
    links := [⟨"N", "D1"⟩, ⟨"N", "D2"⟩, ⟨"N", "D3"⟩, ⟨"N", "T1"⟩] }

/-- An `Other` node with only two same-genre neighbors (share 100 percent
but majority count 2). -/
def c3TwoGraph : AGraph :=
  { nodes := [⟨"N", some "N", some "Other"⟩, ⟨"D1", some "D1", some "Dubstep/Bass"⟩,
              ⟨"D2", some "D2", some "Dubstep/Bass"⟩],
    links := [⟨"N", "D1"⟩, ⟨"N", "D2"⟩] }

/-- An `Other` node with three "Dubstep/Bass" and two "Trance" neighbors
(majority count 3 but share exactly 60 percent). -/
def c3ShareGraph : AGraph :=
  { nodes := [⟨"N", some "N", some "Other"⟩, ⟨"D1", some "D1", some "Dubstep/Bass"⟩,
              ⟨"D2", some "D2", some "Dubstep/Bass"⟩, ⟨"D3", some "D3", some "Dubstep/Bass"⟩,
              ⟨"T1", some "T1", some "Trance"⟩, ⟨"T2", some "T2", some "Trance"⟩],
    links := [⟨"N", "D1"⟩, ⟨"N", "D2"⟩, ⟨"N", "D3"⟩, ⟨"N", "T1"⟩, ⟨"N", "T2"⟩] }

/-- The spec scenario for the K-Pop rule: an `Other` node whose only
labelled neighbors are two "K-Pop" nodes. -/
def c7Graph : AGraph :=
  { nodes := [⟨"N", some "N", some "Other"⟩, ⟨"K1", some "K1", some "K-Pop"⟩,
              ⟨"K2", some "K2", some "K-Pop"⟩],
    links := [⟨"N", "K1"⟩, ⟨"N", "K2"⟩] }

/-- The same scenario with one additional EDM-family neighbor. -/
def c7EdmGraph : AGraph :=
  { nodes := [⟨"N", some "N", some "Other"⟩, ⟨"K1", some "K1", some "K-Pop"⟩,
              ⟨"K2", some "K2", some "K-Pop"⟩, ⟨"M", some "M", some "Melodic Bass"⟩],
    links := [⟨"N", "K1"⟩, ⟨"N", "K2"⟩, ⟨"N", "M"⟩] }

/-- A one-node graph already labelled "K-Pop". -/
def c7KGraph : AGraph := { nodes := [⟨"K1", some "K1", some "K-Pop"⟩], links := [] }

/-- Maximum song count over a built graph's nodes, defined as 1 for an
empty graph, mirroring server.py line 916 at the node level. -/
def graphMaxSongCount (g : Graph) : Nat :=
  if g.nodes.isEmpty then 1 else (g.nodes.map Node.song_count).foldl Nat.max 0

/-- Maximum song count over a spotify graph's nodes (1 when empty). -/
def sGraphMaxSongCount (g : SGraph) : Nat :=
  if g.nodes.isEmpty then 1 else (g.nodes.map SNode.song_count).foldl Nat.max 0

/-! The claim theorems. -/

/-- Claim C1 (counterexample): on the spec's own scenario input
`[{X, A, [A,B]}, {Y, B, [A,B]}]` the builder emits two links - the (A,B)
edge with weight 1 and a (B,B) self-loop with weight 1 - and no link of
weight 2 at all, refuting "exactly one edge between A and B with weight
2". The self-loop arises because the code pairs the grouping artist with
`all_artists[1:]`, and song Y's primary artist B is not `all_artists[0]`. -/
theorem c1_counterexample :
    (build_graph_from_songs [] noLastfm c1Songs).map graphShape = .ok c1Shape ∧
    ¬ (∃ l ∈ c1Shape.links, l.weight = 2) :=
  ⟨by decide, by decide⟩

/-- Claim C1 (amended): the builder produces nodes A and B each with
song_count 1, one collaboration edge (A,B) of weight 1, and one
collaboration self-loop (B,B) of weight 1 (weight 2 is never reached
because song Y contributes the pair (B,B), not (A,B)). -/
theorem c1_amended :
    (build_graph_from_songs [] noLastfm c1Songs).map graphShape = .ok c1Shape := by
  decide

/-- Claim C2 (counterexample): two observations of the same title "X" by
artist A yield song_count 2 - not the distinct-title count 1 - and a
materialized songs list [X, X] that is not deduplicated by title. -/
theorem c2_counterexample :
    (build_graph_from_songs [] noLastfm c2Songs).map graphShape = .ok c2Shape ∧
    (c2Songs.map Song.title).dedup.length = 1 ∧
    c2Shape.nodes.map NodeShape.song_count = [2] ∧
    ¬ ([(⟨"X"⟩ : SongRef), ⟨"X"⟩].map SongRef.title).Nodup :=
  ⟨by decide, by decide, by decide, by decide⟩

/-- Claim C2 (amended): within `build_graph_from_songs` a node's
`song_count` is the total number of observations grouped to the artist
(duplicate titles counted) and `songs` is the first 20 of those
observations without any dedup; separately, the dedup of
`rebuild_graph` (rebuild_graph.py 36-41) deduplicates a materialized song
list by title - its output titles are duplicate-free, it is an
order-preserving sublist of its input, and it covers every input title. -/
theorem c2_amended :
    (∀ (gm : List (String × String)) (lfm : String → Option String) (songs : List Song)
        (g : Graph), build_graph_from_songs gm lfm songs = .ok g →
      ∀ n ∈ g.nodes,
        n.song_count = (songs.filter (fun s => s.artist == some n.id)).length ∧
        n.songs.map SongRef.title =
          ((songs.filter (fun s => s.artist == some n.id)).take 20).map
            (fun s => s.title.getD "")) ∧
    (∀ l : List RSong,
      ((dedupSongsByTitle l).map RSong.title).Nodup ∧
      (dedupSongsByTitle l).Sublist l ∧
      ∀ s ∈ l, ∃ t ∈ dedupSongsByTitle l, t.title = s.title) := by
  constructor
  · intro gm lfm songs g hbuild n hn
    obtain ⟨gs, cc, hgs, hf2, -, -, -⟩ := build_ok_inv hbuild
    obtain ⟨-, hfil, -⟩ := groupSongs_spec songs gs hgs
    obtain ⟨e, he, hmk⟩ := forall₂_mem_right hf2 n hn
    obtain ⟨hid, hcount, -, htitles⟩ := mkNode_ok hmk
    obtain ⟨hf, -⟩ := hfil e he
    constructor
    · rw [hid, hcount, hf]
    · rw [hid]
      have hmap := forall₂_map_eq (fun s : Song => s.title.getD "") SongRef.title
        (fun s t hst => by show s.title.getD "" = t.title; rw [hst]; rfl) htitles
      rw [← hf]
      exact hmap.symm
  · intro l
    have hinv0 : DedupInv ([], []) := ⟨rfl, List.nodup_nil⟩
    have hinv := dedupFold_inv l ([], []) hinv0
    obtain ⟨hmap, hnd⟩ := hinv
    refine ⟨?_, ?_, ?_⟩
    · unfold dedupSongsByTitle
      rw [← hmap]
      exact hnd
    · obtain ⟨r, hr, hsub⟩ := dedupFold_extends l ([], [])
      unfold dedupSongsByTitle
      rw [hr]
      simpa using hsub
    · intro s hs
      exact dedupFold_covers l ([], []) hinv0 s hs

/-- Claim C2 (witness): the single-observation build is inverted by the
amended theorem - node A's song_count is the number of its observations. -/
theorem c2_witness :
    c8wNode.song_count = (oneSong.filter (fun s => s.artist == some c8wNode.id)).length :=
  (c2_amended.1 [] noLastfm oneSong c8wGraph rfl c8wNode (List.mem_singleton_self _)).1

/-- Claim C3 (counterexample): called with min_connections = 4, the pass
still promotes a node whose majority count is only 3 (3 "Dubstep/Bass"
neighbors against 1 "Trance"): the threshold is hardcoded at 3 and the
parameter is ignored, refuting "promoted only if the majority count is at
least k". -/
theorem c3_counterexample :
    dictFind (buildConnections c3Graph.links) "N" = some ["D1", "D2", "D3", "T1"] ∧
    genreCounts c3Graph.nodes ["D1", "D2", "D3", "T1"] = [("Dubstep/Bass", 3), ("Trance", 1)] ∧
    maxByCount [("Dubstep/Bass", (3 : Nat)), ("Trance", 1)] = ("Dubstep/Bass", 3) ∧
    (3 : Nat) < 4 ∧
    infer_genres_from_connections c3Graph 4 = c3GraphPromoted :=
  ⟨by decide, by decide, by decide, by decide, by decide⟩

/-- Claim C3 (amended): promotion requires a hardcoded majority count of
at least 3 together with a share strictly above 0.6, for every value of
the (ignored) min_connections parameter: the 3-versus-1 scenario is
promoted to "Dubstep/Bass"; two same-genre neighbors (100 percent share)
are not promoted; 3 of 5 neighbors (share exactly 0.6) are not promoted. -/
theorem c3_amended :
    (∀ k, infer_genres_from_connections c3Graph k = c3GraphPromoted) ∧
    (∀ k, infer_genres_from_connections c3TwoGraph k = c3TwoGraph) ∧
    (∀ k, infer_genres_from_connections c3ShareGraph k = c3ShareGraph) :=
  ⟨fun _ => rfl, fun _ => rfl, fun _ => rfl⟩

/-- Claim C4: genre propagation is monotonic - a node whose genre is not
the sentinel `Other` is never changed by any sequence of
`infer_genres_from_connections` and `assign_fallback_genre` passes,
iterated any number of times in any order; `Other` to a final label is
the only transition the passes perform. -/
theorem c4_monotonic :
    ∀ (ps : List GenrePass) (g : AGraph) (j : Nat) (nd : ANode),
      g.nodes[j]? = some nd → nd.genre ≠ some "Other" →
      (applyGenrePasses ps g).nodes[j]? = some nd := by
  intro ps
  induction ps with
  | nil => intro g j nd hj _; exact hj
  | cons p rest ih =>
    intro g j nd hj hnd
    have hstep : (applyGenrePass p g).nodes[j]? = some nd := by
      cases p with
      | infer k => exact foldl_inferNode_preserves _ _ _ _ _ hj hnd
      | fallback => exact foldl_fallbackNode_preserves _ _ _ _ _ hj hnd
    exact ih (applyGenrePass p g) j nd hstep hnd

/-- Claim C4 (witness): an already-labelled node of the scenario graph
survives an inference pass followed by the fallback pass unchanged. -/
theorem c4_witness :
    (applyGenrePasses [GenrePass.infer 1, GenrePass.fallback] c3Graph).nodes[1]? =
      some ⟨"D1", some "D1", some "Dubstep/Bass"⟩ :=
  c4_monotonic [GenrePass.infer 1, GenrePass.fallback] c3Graph 1
    ⟨"D1", some "D1", some "Dubstep/Bass"⟩ (by decide) (by decide)

/-- Claim C5: the four lookup stages run in strict order with the first
hit winning - an exact table hit preempts all later stages, the
case-insensitive stage runs only after an exact miss, substring
containment only after both, the keyword patterns only after all three -
and on the scenario names: "Seven Lions" resolves to "Melodic Bass" by
exact match, "seven lions" by the case-insensitive stage, and
"DJ Seven Lions Remix" by substring containment. -/
theorem c5_lookup_stages :
    (∀ name g, exactMatch name = some g → lookupGenre name = some g) ∧
    (∀ name g, exactMatch name = none → ciMatch name = some g → lookupGenre name = some g) ∧
    (∀ name g, exactMatch name = none → ciMatch name = none → subMatch name = some g →
      lookupGenre name = some g) ∧
    (∀ name, exactMatch name = none → ciMatch name = none → subMatch name = none →
      lookupGenre name = patMatch name) ∧
    (exactMatch "Seven Lions" = some "Melodic Bass" ∧
      lookupGenre "Seven Lions" = some "Melodic Bass") ∧
    (exactMatch "seven lions" = none ∧ ciMatch "seven lions" = some "Melodic Bass" ∧
      lookupGenre "seven lions" = some "Melodic Bass") ∧
    (exactMatch "DJ Seven Lions Remix" = none ∧ ciMatch "DJ Seven Lions Remix" = none ∧
      subMatch "DJ Seven Lions Remix" = some "Melodic Bass" ∧
      lookupGenre "DJ Seven Lions Remix" = some "Melodic Bass") := by
  refine ⟨?_, ?_, ?_, ?_, ⟨by decide, by decide⟩, ⟨by decide, by decide, by decide⟩,
    ⟨by decide, by decide, by decide, by decide⟩⟩
  · intro name g h
    unfold lookupGenre
    rw [h]
  · intro name g h1 h2
    unfold lookupGenre
    rw [h1, h2]
  · intro name g h1 h2 h3
    unfold lookupGenre
    rw [h1, h2, h3]
  · intro name h1 h2 h3
    unfold lookupGenre
    rw [h1, h2, h3]

/-- Claim C5 (witness): the exact-stage rule applied at "Seven Lions". -/
theorem c5_witness : lookupGenre "Seven Lions" = some "Melodic Bass" :=
  c5_lookup_stages.1 "Seven Lions" "Melodic Bass" (by decide)

/-- Claim C6 (counterexample): `build_graph_from_songs` itself does not
skip a malformed observation - an observation missing its title raises
KeyError when the node's songs are materialized, and one missing its
artist raises KeyError during grouping; the build fails globally instead
of skipping the record. -/
theorem c6_counterexample :
    build_graph_from_songs [] noLastfm c6NoTitle = .error ("KeyError: " ++ "title") ∧
    build_graph_from_songs [] noLastfm c6NoArtist = .error ("KeyError: " ++ "artist") :=
  ⟨by decide, by decide⟩

/-- Claim C6 (amended): the skipping happens in the parsers, not the
builder: every record `parse_csv_file` emits has a nonempty title and a
nonempty artist (malformed rows are dropped there), the builder never
fails on parser output, and the empty observation set builds the empty
graph with stats.total_artists = 0 rather than raising. -/
theorem c6_amended :
    (∀ rows : List Row, ∀ s ∈ parse_csv_file rows,
      (∃ t, s.title = some t ∧ t ≠ "") ∧ (∃ a, s.artist = some a ∧ a ≠ "")) ∧
    (∀ (rows : List Row) (gm : List (String × String)) (lfm : String → Option String),
      ∃ g, build_graph_from_songs gm lfm (parse_csv_file rows) = .ok g) ∧
    (∀ (gm : List (String × String)) (lfm : String → Option String),
      build_graph_from_songs gm lfm [] = .ok ⟨[], [], ⟨0, 0, 0, 0⟩⟩) := by
  refine ⟨parse_csv_wf, ?_, fun gm lfm => rfl⟩
  intro rows gm lfm
  refine build_ok_of_wf gm lfm _ ?_
  intro s hs
  obtain ⟨⟨t, ht, -⟩, ⟨a, ha, -⟩⟩ := parse_csv_wf rows s hs
  exact ⟨by rw [ht]; rfl, by rw [ha]; rfl⟩

/-- Claim C6 (witness): the parser keeps the complete row of `c6Rows`,
drops the artist-less one, and the kept record is well-formed. -/
theorem c6_witness :
    (∃ t, c6Parsed.title = some t ∧ t ≠ "") ∧ (∃ a, c6Parsed.artist = some a ∧ a ≠ "") :=
  c6_amended.1 c6Rows c6Parsed (by decide)

/-- Claim C7: inference never promotes a node to "K-Pop" (a node carrying
"K-Pop" after an inference pass already carried it before the pass); on
the scenario graph whose only labelled neighbors are two "K-Pop" nodes
the `Other` node survives every number of inference passes and the
fallback pass unchanged (no EDM neighbor); with one additional
"Melodic Bass" neighbor, inference still skips the node (the majority is
K-Pop) but the fallback pass then assigns "Electronic". -/
theorem c7_kpop_rules :
    (∀ (g : AGraph) (k : Nat) (j : Nat) (nd : ANode),
      (infer_genres_from_connections g k).nodes[j]? = some nd →
      nd.genre = some "K-Pop" → g.nodes[j]? = some nd) ∧
    (∀ m k, (fun h => infer_genres_from_connections h k)^[m] c7Graph = c7Graph) ∧
    assign_fallback_genre c7Graph = c7Graph ∧
    (∀ k, infer_genres_from_connections c7EdmGraph k = c7EdmGraph) ∧
    (assign_fallback_genre c7EdmGraph).nodes[0]? =
      some ⟨"N", some "N", some "Electronic"⟩ := by
  refine ⟨?_, ?_, by decide, fun _ => rfl, by decide⟩
  · intro g k j nd h hk
    exact foldl_inferNode_no_kpop _ _ _ _ _ h hk
  · intro m k
    induction m with
    | zero => rfl
    | succ m ihm =>
      rw [Function.iterate_succ_apply]
      have hone : infer_genres_from_connections c7Graph k = c7Graph := rfl
      rw [hone]
      exact ihm

/-- Claim C7 (witness): the no-K-Pop-promotion rule applied to a concrete
one-node graph already labelled "K-Pop". -/
theorem c7_witness :
    c7KGraph.nodes[0]? = some ⟨"K1", some "K1", some "K-Pop"⟩ :=
  c7_kpop_rules.1 c7KGraph 1 0 ⟨"K1", some "K1", some "K-Pop"⟩ (by decide) (by decide)

/-- Claim C8: in every graph either builder emits, a node's importance is
its song_count divided by the maximum song_count over all nodes (the
maximum read as 1 when there are no nodes, so no division by zero), hence
lies in [0,1], and a node attaining the maximal song_count has importance
exactly 1. -/
theorem c8_importance :
    (∀ (gm : List (String × String)) (lfm : String → Option String) (songs : List Song)
        (g : Graph), build_graph_from_songs gm lfm songs = .ok g →
      ∀ n ∈ g.nodes,
        n.importance = (n.song_count : ℚ) / (graphMaxSongCount g : ℚ) ∧
        0 ≤ n.importance ∧ n.importance ≤ 1 ∧
        (n.song_count = graphMaxSongCount g → n.importance = 1)) ∧
    (∀ tracks : List SItem, ∀ n ∈ (build_graph_from_spotify tracks).nodes,
        n.importance =
          (n.song_count : ℚ) / (sGraphMaxSongCount (build_graph_from_spotify tracks) : ℚ) ∧
        0 ≤ n.importance ∧ n.importance ≤ 1 ∧
        (n.song_count = sGraphMaxSongCount (build_graph_from_spotify tracks) →
          n.importance = 1)) := by
  constructor
  · intro gm lfm songs g hbuild n hn
    obtain ⟨gs, cc, hgs, hf2, -, -, -⟩ := build_ok_inv hbuild
    obtain ⟨-, hfil, -⟩ := groupSongs_spec songs gs hgs
    have hmapeq : gs.map (fun e => e.2.length) = g.nodes.map Node.song_count :=
      forall₂_map_eq (fun e => e.2.length) Node.song_count
        (fun e nn hmk => by
          show e.2.length = nn.song_count
          exact ((mkNode_ok hmk).2.1).symm) hf2
    have hmax : maxSongs gs = graphMaxSongCount g := by
      unfold maxSongs graphMaxSongCount
      by_cases hempty : gs.isEmpty = true
      · have hnil : gs = [] := by simpa [List.isEmpty_iff] using hempty
        subst hnil
        have hnodes : g.nodes = [] := List.forall₂_nil_left_iff.mp hf2
        rw [hnodes]
        simp
      · rw [if_neg hempty, hmapeq, if_neg (by
          intro hgnil
          apply hempty
          have hlen := List.Forall₂.length_eq hf2
          rw [List.isEmpty_iff] at hgnil ⊢
          rw [hgnil] at hlen
          simpa using List.length_eq_zero.mp hlen)]
    obtain ⟨e, he, hmk⟩ := forall₂_mem_right hf2 n hn
    obtain ⟨-, hcount, himp, -⟩ := mkNode_ok hmk
    have hne2 : e.2 ≠ [] := (hfil e he).2
    have h1len : 1 ≤ e.2.length := by
      cases e2 : e.2 with
      | nil => exact absurd e2 hne2
      | cons a l => simp
    have hle : e.2.length ≤ maxSongs gs := by
      unfold maxSongs
      rw [if_neg (by
        intro hempty
        rw [List.isEmpty_iff] at hempty
        rw [hempty] at he
        cases he)]
      exact le_foldl_max _ 0 _ (List.mem_map_of_mem (fun x => x.2.length) he)
    have hmaxpos : 0 < maxSongs gs := lt_of_lt_of_le Nat.one_pos (le_trans h1len hle)
    have hqpos : (0 : ℚ) < (maxSongs gs : ℚ) := by exact_mod_cast hmaxpos
    refine ⟨by rw [himp, hcount, hmax], ?_, ?_, ?_⟩
    · rw [himp]
      exact div_nonneg (Nat.cast_nonneg _) (Nat.cast_nonneg _)
    · rw [himp, div_le_one hqpos]
      exact_mod_cast hle
    · intro hattain
      rw [hcount, ← hmax] at hattain
      rw [himp, hattain]
      exact div_self (ne_of_gt hqpos)
  · intro tracks n hn
    have hn' : n ∈ (sGroup (parse_spotify_tracks tracks)).map
        (sNodeOf (sMaxSongs (sGroup (parse_spotify_tracks tracks)))) := hn
    obtain ⟨e, he, rfl⟩ := List.mem_map.mp hn'
    have hne2 : e.2.songs ≠ [] := sGroup_songs_ne_nil (parse_spotify_tracks tracks) e he
    have hmax : sMaxSongs (sGroup (parse_spotify_tracks tracks)) =
        sGraphMaxSongCount (build_graph_from_spotify tracks) := by
      unfold sMaxSongs sGraphMaxSongCount
      have hnodes : (build_graph_from_spotify tracks).nodes =
          (sGroup (parse_spotify_tracks tracks)).map
            (sNodeOf (sMaxSongs (sGroup (parse_spotify_tracks tracks)))) := rfl
      rw [hnodes, List.map_map]
      have hcomp : (SNode.song_count ∘
          sNodeOf (sMaxSongs (sGroup (parse_spotify_tracks tracks)))) =
          fun g => g.2.songs.length := rfl
      rw [hcomp]
      by_cases hempty : (sGroup (parse_spotify_tracks tracks)).isEmpty = true
      · rw [if_pos hempty, if_pos (by
          rw [List.isEmpty_iff] at hempty ⊢
          rw [hempty]
          rfl)]
      · rw [if_neg hempty, if_neg (by
          intro hmapnil
          apply hempty
          rw [List.isEmpty_iff] at hmapnil ⊢
          simpa using List.map_eq_nil_iff.mp hmapnil)]
    have h1len : 1 ≤ e.2.songs.length := by
      cases e2 : e.2.songs with
      | nil => exact absurd e2 hne2
      | cons a l => simp
    have hle : e.2.songs.length ≤ sMaxSongs (sGroup (parse_spotify_tracks tracks)) := by
      unfold sMaxSongs
      rw [if_neg (by
        intro hempty
        rw [List.isEmpty_iff] at hempty
        rw [hempty] at he
        cases he)]
      exact le_foldl_max _ 0 _ (List.mem_map_of_mem (fun x => x.2.songs.length) he)
    have hmaxpos : 0 < sMaxSongs (sGroup (parse_spotify_tracks tracks)) :=
      lt_of_lt_of_le Nat.one_pos (le_trans h1len hle)
    have hqpos : (0 : ℚ) < ((sMaxSongs (sGroup (parse_spotify_tracks tracks))) : ℚ) := by
      exact_mod_cast hmaxpos
    have himp : (sNodeOf (sMaxSongs (sGroup (parse_spotify_tracks tracks))) e).importance =
        (e.2.songs.length : ℚ) / ((sMaxSongs (sGroup (parse_spotify_tracks tracks))) : ℚ) := rfl
    have hcount : (sNodeOf (sMaxSongs (sGroup (parse_spotify_tracks tracks))) e).song_count =
        e.2.songs.length := rfl
    refine ⟨by rw [himp, hcount, hmax], ?_, ?_, ?_⟩
    · rw [himp]
      exact div_nonneg (Nat.cast_nonneg _) (Nat.cast_nonneg _)
    · rw [himp, div_le_one hqpos]
      exact_mod_cast hle
    · intro hattain
      rw [hcount, ← hmax] at hattain
      rw [himp, hattain]
      exact div_self (ne_of_gt hqpos)

/-- Claim C8 (witness): the single-observation build gives its only node
importance song_count over maximum, which is exactly 1. -/
theorem c8_witness :
    c8wNode.importance = (c8wNode.song_count : ℚ) / (graphMaxSongCount c8wGraph : ℚ) ∧
    c8wNode.importance = 1 :=
  ⟨(c8_importance.1 [] noLastfm oneSong c8wGraph rfl c8wNode (List.mem_singleton_self _)).1,
   (c8_importance.1 [] noLastfm oneSong c8wGraph rfl c8wNode
      (List.mem_singleton_self _)).2.2.2 (by decide)⟩

/-- Claim C9: in every graph either builder emits, both endpoint ids of
every link belong to some node of the graph, and no two links share the
same unordered endpoint pair (the list of canonical sorted pairs is
duplicate-free). -/
theorem c9_edges :
    (∀ (gm : List (String × String)) (lfm : String → Option String) (songs : List Song)
        (g : Graph), build_graph_from_songs gm lfm songs = .ok g →
      (∀ l ∈ g.links,
        (∃ n ∈ g.nodes, n.id = l.source) ∧ (∃ n ∈ g.nodes, n.id = l.target)) ∧
      ((g.links.map (fun l => sortPair l.source l.target)).Nodup)) ∧
    (∀ tracks : List SItem,
      (∀ l ∈ (build_graph_from_spotify tracks).links,
        (∃ n ∈ (build_graph_from_spotify tracks).nodes, n.id = l.source) ∧
        (∃ n ∈ (build_graph_from_spotify tracks).nodes, n.id = l.target)) ∧
      (((build_graph_from_spotify tracks).links.map
          (fun l => sortPair l.source l.target)).Nodup)) := by
  constructor
  · intro gm lfm songs g hbuild
    obtain ⟨gs, cc, hgs, hf2, hcc, hlinks, -⟩ := build_ok_inv hbuild
    have hinv : CollabInv (gs.map Prod.fst) cc := collabPass2_inv hcc (collabPass1_inv gs)
    have hkey_node : ∀ a ∈ gs.map Prod.fst, ∃ n ∈ g.nodes, n.id = a := by
      intro a ha
      obtain ⟨e, he, rfl⟩ := List.mem_map.mp ha
      obtain ⟨nn, hnn, hmk⟩ := forall₂_mem_left hf2 e he
      exact ⟨nn, hnn, (mkNode_ok hmk).1⟩
    constructor
    · intro l hl
      rw [hlinks] at hl
      obtain ⟨hs, ht⟩ := mkLinks_endpoints hinv l hl
      exact ⟨hkey_node _ hs, hkey_node _ ht⟩
    · rw [hlinks]
      exact mkLinks_nodup hinv
  · intro tracks
    have hlinks : (build_graph_from_spotify tracks).links =
        (sLinks (sGroup (parse_spotify_tracks tracks))).1 := rfl
    have hnodes : (build_graph_from_spotify tracks).nodes =
        (sGroup (parse_spotify_tracks tracks)).map
          (sNodeOf (sMaxSongs (sGroup (parse_spotify_tracks tracks)))) := rfl
    obtain ⟨hmap, hnd, hall⟩ := sLinks_inv (sGroup (parse_spotify_tracks tracks))
    have hkey_node : ∀ a ∈ (sGroup (parse_spotify_tracks tracks)).map Prod.fst,
        ∃ n ∈ (build_graph_from_spotify tracks).nodes, n.id = a := by
      intro a ha
      obtain ⟨e, he, rfl⟩ := List.mem_map.mp ha
      refine ⟨sNodeOf (sMaxSongs (sGroup (parse_spotify_tracks tracks))) e, ?_, rfl⟩
      rw [hnodes]
      exact List.mem_map_of_mem _ he
    constructor
    · intro l hl
      rw [hlinks] at hl
      obtain ⟨hsrc, htgt⟩ := hall l hl
      exact ⟨hkey_node _ hsrc, hkey_node _ htgt⟩
    · rw [hlinks, ← hmap]
      exact hnd

/-- Claim C9 (witness): the scenario build's links carry pairwise-distinct
unordered endpoint pairs. -/
theorem c9_witness :
    (c1Graph.links.map (fun l => sortPair l.source l.target)).Nodup :=
  (c9_edges.1 [] noLastfm c1Songs c1Graph rfl).2

/-- Claim C10: the min_connections parameter of
`infer_genres_from_connections` has no effect - any two parameter values
produce identical output graphs on every input - and the promotion bar is
the hardcoded 3: an `Other` node with two same-genre neighbors (share
1.0) is not promoted for any parameter value, not even 1. -/
theorem c10_param_ignored :
    (∀ (g : AGraph) (k₁ k₂ : Nat),
      infer_genres_from_connections g k₁ = infer_genres_from_connections g k₂) ∧
    (∀ k, infer_genres_from_connections c3TwoGraph k = c3TwoGraph) :=
  ⟨fun _ _ _ => rfl, fun _ => rfl⟩

end YMM
